import Mathlib

/-!
Verification of the core of the daywise task manager (src/app.py):
data model, completion-state propagation between a task and its subtasks,
order-key assignment and adjacent-swap moves, the display sorter, input
validation, and the bulk reset operation.

Conventions of the shallow embedding:
* Database rows become Lean structures; the `created_at` column is omitted
  because no modelled operation reads or writes it.
* A nullable integer column is `Option Int`; SQL comparisons with NULL are
  false (`optLt`), SQL `MAX` ignores NULLs (`sqlMax`).
* Each Flask route handler becomes a pure function from the relevant state
  to the new state; `first_or_404` becomes `List.find?` with `none` for the
  404 case; validation failures that `flash` a message and redirect are a
  distinguished `rejected` outcome carrying the unchanged state, and an
  unhandled Python exception is the `crashed` outcome.
-/

set_option maxHeartbeats 1000000

namespace Daywise

/-- A task row (`Task` model, src/app.py lines 56-91). -/
structure Task where
  id : Nat
  description : String
  estimated_time : Int
  is_completed : Bool
  priority : String
  time_block : String
  order_index : Option Int
  user_id : Nat
  category_id : Option Nat
deriving DecidableEq

/-- A subtask row (`Subtask` model, src/app.py lines 93-108). -/
structure Subtask where
  id : Nat
  description : String
  is_completed : Bool
  order_index : Option Int
  task_id : Nat
deriving DecidableEq

/-- A category row (`Category` model, src/app.py lines 42-54). -/
structure Category where
  id : Nat
  name : String
  color : String
  user_id : Nat
deriving DecidableEq

/-- SQL comparison `a < b` on a nullable integer column: NULL on either side
is not less than anything (the row is filtered out). -/
def optLt : Option Int → Option Int → Bool
  | some a, some b => decide (a < b)
  | _, _ => false

/-- SQL `MAX` aggregation step: NULL operands are ignored. -/
def omax : Option Int → Option Int → Option Int
  | none, b => b
  | some a, none => some a
  | some a, some b => some (max a b)

/-- SQL `MAX(order_index)` over a list of rows: NULL if no non-NULL value. -/
def sqlMax (ks : List (Option Int)) : Option Int := ks.foldl omax none

/-- Python `scalar() or 0`: `None` becomes `0`; an integer is kept
(`0 or 0` is `0`, so this agrees with `Option.getD 0` on every input). -/
def orZero : Option Int → Int
  | none => 0
  | some a => a

/-- Route `toggle_task` (src/app.py lines 347-359) restricted to the found
task and its subtask list: flip the task flag, and if the task is now
complete and has subtasks, mark every subtask complete. -/
def toggle_task (t : Task) (subs : List Subtask) : Task × List Subtask :=
  let t' := { t with is_completed := !t.is_completed }
  if t'.is_completed && !subs.isEmpty then
    (t', subs.map (fun s => { s with is_completed := true }))
  else
    (t', subs)

/-- Route `toggle_subtask` (src/app.py lines 389-405): flip the flag of the
subtask with the given id, then set the parent flag to the comparison
`subtask_count == completed_subtask_count`; `none` models the 404 when the
subtask does not exist. -/
def toggle_subtask (t : Task) (subs : List Subtask) (sid : Nat) :
    Option (Task × List Subtask) :=
  match subs.find? (fun s => s.id == sid) with
  | none => none
  | some _ =>
    let subs' := subs.map
      (fun s => if s.id == sid then { s with is_completed := !s.is_completed } else s)
    let t' := { t with
      is_completed := decide (subs'.length = subs'.countP (fun s => s.is_completed)) }
    some (t', subs')

/-- Route `delete_subtask` (src/app.py lines 460-476): remove the subtask,
then set the parent flag to true when at least one subtask remains and all
remaining subtasks are complete; there is no `else` branch in the source, so
in every other case the parent flag keeps its previous value. -/
def delete_subtask (t : Task) (subs : List Subtask) (sid : Nat) :
    Option (Task × List Subtask) :=
  match subs.find? (fun s => s.id == sid) with
  | none => none
  | some _ =>
    let subs' := subs.eraseP (fun s => s.id == sid)
    let t' := if 0 < subs'.length ∧ subs'.length = subs'.countP (fun s => s.is_completed)
      then { t with is_completed := true } else t
    some (t', subs')

/-- Route `add_subtask` (src/app.py lines 361-387): reject an empty
description, otherwise append a new subtask with order key
`max(existing) + 1` (`1` on an empty or all-NULL scope) and force a
completed parent back to incomplete. -/
def add_subtask (t : Task) (subs : List Subtask) (nid : Nat) (description : String) :
    Option (Task × List Subtask) :=
  if description = "" then none
  else
    let highest_order := orZero (sqlMax (subs.map (fun s => s.order_index)))
    let ns : Subtask := { id := nid, description := description, is_completed := false,
                          order_index := some (highest_order + 1), task_id := t.id }
    let t' := if t.is_completed then { t with is_completed := false } else t
    some (t', subs ++ [ns])

/-- C1: after `toggle_subtask` flips one subtask flag, the parent flag is
true iff every subtask (including the toggled one) is complete; the parent
necessarily has at least one subtask, so the flag is recomputed to true
exactly when all are complete and to false otherwise. -/
theorem toggle_subtask_parent_flag (t : Task) (subs : List Subtask) (sid : Nat)
    (t' : Task) (subs' : List Subtask)
    (h : toggle_subtask t subs sid = some (t', subs')) :
    subs' ≠ [] ∧
    (t'.is_completed = true ↔ ∀ s ∈ subs', s.is_completed = true) ∧
    (t'.is_completed = false ↔ ∃ s ∈ subs', s.is_completed = false) := by
  unfold toggle_subtask at h
  cases hf : subs.find? (fun s => s.id == sid) with
  | none => rw [hf] at h; exact absurd h (by simp)
  | some s0 =>
    rw [hf] at h
    simp only [Option.some.injEq, Prod.mk.injEq] at h
    obtain ⟨ht, hs⟩ := h
    subst ht
    subst hs
    have hmem : s0 ∈ subs := List.mem_of_find?_eq_some hf
    have hne : subs ≠ [] := by intro hnil; rw [hnil] at hmem; exact absurd hmem (by simp)
    set L := subs.map
      (fun s => if s.id == sid then { s with is_completed := !s.is_completed } else s)
      with hL
    have hcount : (L.length = L.countP (fun s => s.is_completed)) ↔
        ∀ s ∈ L, s.is_completed = true := by
      constructor
      · intro hc
        exact List.countP_eq_length.mp hc.symm
      · intro hall
        exact (List.countP_eq_length.mpr hall).symm
    refine ⟨?_, ?_, ?_⟩
    · intro hcon
      exact hne (List.map_eq_nil_iff.mp (hL ▸ hcon))
    · show decide (L.length = L.countP (fun s => s.is_completed)) = true ↔ _
      rw [decide_eq_true_eq]
      exact hcount
    · show decide (L.length = L.countP (fun s => s.is_completed)) = false ↔ _
      rw [decide_eq_false_iff_not, hcount]
      constructor
      · intro hnall
        by_contra hnex
        push_neg at hnex
        apply hnall
        intro s hsmem
        have := hnex s hsmem
        revert this
        cases s.is_completed <;> simp
      · rintro ⟨s, hsmem, hsf⟩ hall
        have := hall s hsmem
        rw [this] at hsf
        exact absurd hsf (by simp)

/-- Witness for C1: toggling the one incomplete subtask of a two-subtask
task makes the parent complete. -/
theorem toggle_subtask_parent_flag_witness :
    toggle_subtask ⟨1, "t", 30, false, "medium", "any", some 1, 1, none⟩
        [⟨1, "a", true, some 1, 1⟩, ⟨2, "b", false, some 2, 1⟩] 2
      = some (⟨1, "t", 30, true, "medium", "any", some 1, 1, none⟩,
              [⟨1, "a", true, some 1, 1⟩, ⟨2, "b", true, some 2, 1⟩]) ∧
    ([⟨1, "a", true, some 1, 1⟩, ⟨2, "b", true, some 2, 1⟩] ≠ ([] : List Subtask) ∧
     ((true : Bool) = true ↔
        ∀ s ∈ [Subtask.mk 1 "a" true (some 1) 1, Subtask.mk 2 "b" true (some 2) 1],
          s.is_completed = true) ∧
     ((true : Bool) = false ↔
        ∃ s ∈ [Subtask.mk 1 "a" true (some 1) 1, Subtask.mk 2 "b" true (some 2) 1],
          s.is_completed = false)) :=
  ⟨by decide,
   toggle_subtask_parent_flag ⟨1, "t", 30, false, "medium", "any", some 1, 1, none⟩
     [⟨1, "a", true, some 1, 1⟩, ⟨2, "b", false, some 2, 1⟩] 2
     ⟨1, "t", 30, true, "medium", "any", some 1, 1, none⟩
     [⟨1, "a", true, some 1, 1⟩, ⟨2, "b", true, some 2, 1⟩] (by decide)⟩

/-- Updating `is_completed` to the value it already has is the identity. -/
lemma task_set_false_eq_self (t : Task) (h : t.is_completed = false) :
    ({ t with is_completed := false } : Task) = t := by
  cases t; simp_all

/-- C2: `toggle_task` flips the task flag and changes no other task field;
when the new value is complete and there is at least one subtask, every
subtask flag is set to true; when the new value is incomplete (the task was
complete) the subtasks are untouched; with zero subtasks nothing but the
task flag changes. -/
theorem toggle_task_cascade (t : Task) (subs : List Subtask) :
    (toggle_task t subs).1 = { t with is_completed := !t.is_completed } ∧
    (t.is_completed = false → subs ≠ [] →
      (toggle_task t subs).2 = subs.map (fun s => { s with is_completed := true })) ∧
    (t.is_completed = true → (toggle_task t subs).2 = subs) ∧
    (subs = [] → (toggle_task t subs).2 = subs) := by
  unfold toggle_task
  cases hc : t.is_completed with
  | false =>
    cases subs with
    | nil => simp
    | cons a l => simp
  | true =>
    simp

/-- Witness for C2: completing an incomplete task completes its subtask, and
un-completing a complete task leaves its subtask untouched. -/
theorem toggle_task_cascade_witness :
    ((⟨1, "t", 30, false, "medium", "any", some 1, 1, none⟩ : Task).is_completed = false ∧
     ([⟨1, "a", false, some 1, 1⟩] : List Subtask) ≠ [] ∧
     (toggle_task ⟨1, "t", 30, false, "medium", "any", some 1, 1, none⟩
         [⟨1, "a", false, some 1, 1⟩]).2
       = ([⟨1, "a", false, some 1, 1⟩] : List Subtask).map
           (fun s => { s with is_completed := true })) ∧
    ((⟨2, "u", 30, true, "medium", "any", some 1, 1, none⟩ : Task).is_completed = true ∧
     (toggle_task ⟨2, "u", 30, true, "medium", "any", some 1, 1, none⟩
         [⟨3, "c", true, some 1, 2⟩]).2 = [⟨3, "c", true, some 1, 2⟩]) :=
  ⟨⟨rfl, by decide,
    (toggle_task_cascade ⟨1, "t", 30, false, "medium", "any", some 1, 1, none⟩
        [⟨1, "a", false, some 1, 1⟩]).2.1 rfl (by decide)⟩,
   ⟨rfl,
    (toggle_task_cascade ⟨2, "u", 30, true, "medium", "any", some 1, 1, none⟩
        [⟨3, "c", true, some 1, 2⟩]).2.2.1 rfl⟩⟩

/-- C8: a successful `add_subtask` leaves the parent task incomplete — a
previously complete parent is forced back to incomplete, an incomplete
parent stays incomplete — and no other parent field changes. -/
theorem add_subtask_resets_completion (t : Task) (subs : List Subtask) (nid : Nat)
    (description : String) (t' : Task) (subs' : List Subtask)
    (h : add_subtask t subs nid description = some (t', subs')) :
    t'.is_completed = false ∧ t' = { t with is_completed := false } := by
  unfold add_subtask at h
  by_cases hd : description = ""
  · rw [if_pos hd] at h; exact absurd h (by simp)
  · rw [if_neg hd] at h
    simp only [Option.some.injEq, Prod.mk.injEq] at h
    obtain ⟨ht, -⟩ := h
    cases hc : t.is_completed with
    | false =>
      rw [hc] at ht
      simp only [Bool.false_eq_true, if_false] at ht
      subst ht
      exact ⟨hc, (task_set_false_eq_self t hc).symm⟩
    | true =>
      rw [hc] at ht
      simp only [if_true] at ht
      subst ht
      exact ⟨rfl, rfl⟩

/-- Witness for C8: adding a subtask to a complete task flips it to
incomplete. -/
theorem add_subtask_resets_completion_witness :
    add_subtask ⟨1, "t", 30, true, "medium", "any", some 1, 1, none⟩ [] 5 "x"
      = some (⟨1, "t", 30, false, "medium", "any", some 1, 1, none⟩,
              [⟨5, "x", false, some 1, 1⟩]) ∧
    (⟨1, "t", 30, false, "medium", "any", some 1, 1, none⟩ : Task).is_completed = false ∧
    (⟨1, "t", 30, false, "medium", "any", some 1, 1, none⟩ : Task)
      = { (⟨1, "t", 30, true, "medium", "any", some 1, 1, none⟩ : Task) with
          is_completed := false } :=
  ⟨by decide,
   add_subtask_resets_completion ⟨1, "t", 30, true, "medium", "any", some 1, 1, none⟩ [] 5 "x"
     ⟨1, "t", 30, false, "medium", "any", some 1, 1, none⟩
     [⟨5, "x", false, some 1, 1⟩] (by decide)⟩

/-- C3 counterexample: deleting the complete subtask of a complete parent
leaves one incomplete subtask behind, yet the parent flag stays `true` —
`delete_subtask` never recomputes the flag to `false`, contradicting the
claim that the flag becomes false whenever some remaining subtask is
incomplete. -/
theorem delete_subtask_claim_counterexample :
    delete_subtask ⟨1, "t", 30, true, "medium", "any", some 1, 1, none⟩
        [⟨1, "a", true, some 1, 1⟩, ⟨2, "b", false, some 2, 1⟩] 1
      = some (⟨1, "t", 30, true, "medium", "any", some 1, 1, none⟩,
              [⟨2, "b", false, some 2, 1⟩]) ∧
    (⟨2, "b", false, some 2, 1⟩ : Subtask).is_completed = false ∧
    (⟨1, "t", 30, true, "medium", "any", some 1, 1, none⟩ : Task).is_completed = true := by
  decide

/-- C3 amended: after `delete_subtask` removes one subtask, if at least one
subtask remains and all remaining ones are complete the parent flag is set
to true; in every other case (some remaining subtask incomplete, or zero
remaining) the parent is left untouched at its prior value — the source has
no branch that resets the flag to false. -/
theorem delete_subtask_parent_flag (t : Task) (subs : List Subtask) (sid : Nat)
    (t' : Task) (subs' : List Subtask)
    (h : delete_subtask t subs sid = some (t', subs')) :
    (subs' ≠ [] → (∀ s ∈ subs', s.is_completed = true) → t'.is_completed = true) ∧
    ((∃ s ∈ subs', s.is_completed = false) → t' = t) ∧
    (subs' = [] → t' = t) := by
  unfold delete_subtask at h
  cases hf : subs.find? (fun s => s.id == sid) with
  | none => rw [hf] at h; exact absurd h (by simp)
  | some s0 =>
    rw [hf] at h
    simp only [Option.some.injEq, Prod.mk.injEq] at h
    obtain ⟨ht, hs⟩ := h
    subst ht
    subst hs
    set L := subs.eraseP (fun s => s.id == sid) with hL
    refine ⟨?_, ?_, ?_⟩
    · intro hne hall
      have hcond : 0 < L.length ∧ L.length = L.countP (fun s => s.is_completed) := by
        refine ⟨List.length_pos.mpr hne, (List.countP_eq_length.mpr hall).symm⟩
      rw [if_pos hcond]
    · rintro ⟨s, hsmem, hsf⟩
      have hcond : ¬ (0 < L.length ∧ L.length = L.countP (fun s => s.is_completed)) := by
        rintro ⟨-, hlen⟩
        have := List.countP_eq_length.mp hlen.symm s hsmem
        rw [hsf] at this
        exact absurd this (by simp)
      rw [if_neg hcond]
    · intro hnil
      have hcond : ¬ (0 < L.length ∧ L.length = L.countP (fun s => s.is_completed)) := by
        rintro ⟨hpos, -⟩
        rw [hnil] at hpos
        exact absurd hpos (by simp)
      rw [if_neg hcond]

/-- Witness for C3 (amended): deleting the last incomplete subtask, leaving
one complete subtask, sets the parent to complete. -/
theorem delete_subtask_parent_flag_witness :
    delete_subtask ⟨1, "t", 30, false, "medium", "any", some 1, 1, none⟩
        [⟨1, "a", true, some 1, 1⟩, ⟨2, "b", false, some 2, 1⟩] 2
      = some (⟨1, "t", 30, true, "medium", "any", some 1, 1, none⟩,
              [⟨1, "a", true, some 1, 1⟩]) ∧
    ([⟨1, "a", true, some 1, 1⟩] : List Subtask) ≠ [] ∧
    (∀ s ∈ [Subtask.mk 1 "a" true (some 1) 1], s.is_completed = true) ∧
    (⟨1, "t", 30, true, "medium", "any", some 1, 1, none⟩ : Task).is_completed = true :=
  ⟨by decide, by decide, by decide,
   (delete_subtask_parent_flag ⟨1, "t", 30, false, "medium", "any", some 1, 1, none⟩
       [⟨1, "a", true, some 1, 1⟩, ⟨2, "b", false, some 2, 1⟩] 2
       ⟨1, "t", 30, true, "medium", "any", some 1, 1, none⟩
       [⟨1, "a", true, some 1, 1⟩] (by decide)).1 (by decide) (by decide)⟩

/-- Accumulator pass of Python `int()`: consume decimal digits, failing on
the first non-digit character. -/
def digitsVal : List Char → Nat → Option Nat
  | [], acc => some acc
  | c :: cs, acc =>
    if c.isDigit then digitsVal cs (acc * 10 + (c.toNat - '0'.toNat)) else none

/-- Surrounding-whitespace strip used by Python `int()`. -/
def stripSpaces (l : List Char) : List Char :=
  ((l.dropWhile (fun c => c.isWhitespace)).reverse.dropWhile
    (fun c => c.isWhitespace)).reverse

/-- Python `int(str)` on the inputs that occur here: optional surrounding
whitespace, an optional single sign, then at least the empty run of decimal
digits of which there must be one; anything else raises `ValueError`
(modelled as `none`). Digit-group underscores are not modelled. -/
def pyInt (s : String) : Option Int :=
  match stripSpaces s.data with
  | [] => none
  | '+' :: cs => if cs = [] then none else (digitsVal cs 0).map (fun n => (n : Int))
  | '-' :: cs => if cs = [] then none else (digitsVal cs 0).map (fun n => -(n : Int))
  | cs => (digitsVal cs 0).map (fun n => (n : Int))

/-- Outcome of a request handler: `rejected` is a `flash` of the given
message followed by a redirect with the unchanged state, `crashed` is an
unhandled Python exception (no message) with the unchanged state,
`notFound` is the 404 abort, `done` is the committed new state. -/
inductive Outcome (σ : Type) where
  | rejected : String → σ → Outcome σ
  | crashed : σ → Outcome σ
  | notFound : σ → Outcome σ
  | done : σ → Outcome σ
deriving DecidableEq

/-- Message flashed by `add_task` and `edit_task` on validation failure. -/
def VALIDATION_MSG : String := "Please enter a valid task description and estimated time."

/-- Category ownership check shared by `add_task` and `edit_task`
(src/app.py lines 321-327 and 493-499): a missing or `'none'` selection, or
a category not owned by the acting user, silently becomes no category. -/
def resolve_category (cats : List Category) (uid : Nat) (category_id : Option Nat) :
    Option Nat :=
  match category_id with
  | none => none
  | some c => if cats.any (fun k => k.id == c && k.user_id == uid) then some c else none

/-- Route `add_task` (src/app.py lines 307-345). The `order_index_form`
field is read from the form (line 315) but never used. Validation first
checks the description and estimated-time strings for emptiness, then
evaluates `int(estimated_time)`, which raises an unhandled `ValueError` on
non-numeric input; on success the new task is appended with order key
`max(order keys of the user's tasks) + 1` (`1` if that scope is empty). -/
def add_task (tasks : List Task) (cats : List Category) (uid nid : Nat)
    (description estimated_time priority time_block : String)
    (category_id : Option Nat) (order_index_form : String) : Outcome (List Task) :=
  if description = "" || estimated_time = "" then Outcome.rejected VALIDATION_MSG tasks
  else
    match pyInt estimated_time with
    | none => Outcome.crashed tasks
    | some n =>
      if n ≤ 0 then Outcome.rejected VALIDATION_MSG tasks
      else
        let cid := resolve_category cats uid category_id
        let highest_order := orZero (sqlMax
          ((tasks.filter (fun e => e.user_id == uid)).map (fun e => e.order_index)))
        let nt : Task :=
          { id := nid, description := description, estimated_time := n,
            is_completed := false, priority := priority, time_block := time_block,
            order_index := some (highest_order + 1), user_id := uid, category_id := cid }
        Outcome.done (tasks ++ [nt])

/-- Route `edit_task` (src/app.py lines 478-508): 404 when the task is not
owned by the acting user, then the same validation as `add_task`; all field
assignments happen after validation, so a rejected or crashed edit changes
nothing. -/
def edit_task (tasks : List Task) (cats : List Category) (uid tid : Nat)
    (description estimated_time priority time_block : String)
    (category_id : Option Nat) : Outcome (List Task) :=
  match tasks.find? (fun t => t.id == tid && t.user_id == uid) with
  | none => Outcome.notFound tasks
  | some _ =>
    if description = "" || estimated_time = "" then Outcome.rejected VALIDATION_MSG tasks
    else
      match pyInt estimated_time with
      | none => Outcome.crashed tasks
      | some n =>
        if n ≤ 0 then Outcome.rejected VALIDATION_MSG tasks
        else
          let cid := resolve_category cats uid category_id
          Outcome.done (tasks.map (fun t =>
            if t.id == tid && t.user_id == uid then
              { t with
                description := description, estimated_time := n,
                priority := priority, time_block := time_block,
                category_id := cid }
            else t))

/-- C9 counterexample: a create command with a non-empty description and the
non-numeric estimated time `"abc"` is not rejected with the validation
message — `int(estimated_time)` raises an unhandled `ValueError` (HTTP 500,
no flash) — refuting the claim that every such command is rejected with a
user-visible message. -/
theorem add_task_nonnumeric_counterexample :
    add_task [] [] 1 1 "Write report" "abc" "medium" "any" none "0"
      = Outcome.crashed [] ∧
    add_task [] [] 1 1 "Write report" "abc" "medium" "any" none "0"
      ≠ Outcome.rejected VALIDATION_MSG [] := by
  decide

/-- C9 amended: create and edit commands with an empty description, an
empty/missing estimated time, or a parseable non-positive estimated time
are rejected with the validation message and the stored state unchanged;
a non-numeric estimated time instead raises an unhandled error (no
message), which also leaves the stored state unchanged. -/
theorem task_validation_spec :
    (∀ (tasks : List Task) (cats : List Category) (uid nid : Nat)
       (d et p tb : String) (c : Option Nat) (o : String),
       (d = "" ∨ et = "" →
         add_task tasks cats uid nid d et p tb c o
           = Outcome.rejected VALIDATION_MSG tasks) ∧
       (∀ n : Int, pyInt et = some n → n ≤ 0 →
         add_task tasks cats uid nid d et p tb c o
           = Outcome.rejected VALIDATION_MSG tasks) ∧
       (d ≠ "" → et ≠ "" → pyInt et = none →
         add_task tasks cats uid nid d et p tb c o = Outcome.crashed tasks)) ∧
    (∀ (tasks : List Task) (cats : List Category) (uid tid : Nat)
       (d et p tb : String) (c : Option Nat) (t0 : Task),
       tasks.find? (fun t => t.id == tid && t.user_id == uid) = some t0 →
       (d = "" ∨ et = "" →
         edit_task tasks cats uid tid d et p tb c
           = Outcome.rejected VALIDATION_MSG tasks) ∧
       (∀ n : Int, pyInt et = some n → n ≤ 0 →
         edit_task tasks cats uid tid d et p tb c
           = Outcome.rejected VALIDATION_MSG tasks) ∧
       (d ≠ "" → et ≠ "" → pyInt et = none →
         edit_task tasks cats uid tid d et p tb c = Outcome.crashed tasks)) := by
  constructor
  · intro tasks cats uid nid d et p tb c o
    refine ⟨?_, ?_, ?_⟩
    · rintro (hd | he)
      · simp [add_task, hd]
      · simp [add_task, he]
    · intro n hn hle
      by_cases hd : d = ""
      · simp [add_task, hd]
      · by_cases he : et = ""
        · simp [add_task, he]
        · simp [add_task, hd, he, hn, hle]
    · intro hd he hpy
      simp [add_task, hd, he, hpy]
  · intro tasks cats uid tid d et p tb c t0 hfind
    refine ⟨?_, ?_, ?_⟩
    · rintro (hd | he)
      · simp [edit_task, hfind, hd]
      · simp [edit_task, hfind, he]
    · intro n hn hle
      by_cases hd : d = ""
      · simp [edit_task, hfind, hd]
      · by_cases he : et = ""
        · simp [edit_task, hfind, he]
        · simp [edit_task, hfind, hd, he, hn, hle]
    · intro hd he hpy
      simp [edit_task, hfind, hd, he, hpy]

/-- Witness for C9 (amended): an empty description is rejected, estimated
time zero is rejected, non-numeric estimated time crashes, and an edit of
an existing task with an empty description is rejected. -/
theorem task_validation_spec_witness :
    (("" : String) = "" ∨ ("30" : String) = "") ∧
    add_task [] [] 1 1 "" "30" "medium" "any" none "0"
      = Outcome.rejected VALIDATION_MSG [] ∧
    (pyInt "0" = some 0 ∧ (0 : Int) ≤ 0) ∧
    add_task [] [] 1 1 "x" "0" "medium" "any" none "0"
      = Outcome.rejected VALIDATION_MSG [] ∧
    (("x" : String) ≠ "" ∧ ("abc" : String) ≠ "" ∧ pyInt "abc" = none) ∧
    add_task [] [] 1 2 "x" "abc" "medium" "any" none "0" = Outcome.crashed [] ∧
    List.find? (fun t => t.id == 7 && t.user_id == 1)
        [(⟨7, "t", 30, false, "medium", "any", some 1, 1, none⟩ : Task)]
      = some ⟨7, "t", 30, false, "medium", "any", some 1, 1, none⟩ ∧
    edit_task [⟨7, "t", 30, false, "medium", "any", some 1, 1, none⟩] [] 1 7 "" "30"
        "medium" "any" none
      = Outcome.rejected VALIDATION_MSG
          [⟨7, "t", 30, false, "medium", "any", some 1, 1, none⟩] :=
  ⟨Or.inl rfl,
   (task_validation_spec.1 [] [] 1 1 "" "30" "medium" "any" none "0").1 (Or.inl rfl),
   ⟨by decide, by decide⟩,
   (task_validation_spec.1 [] [] 1 1 "x" "0" "medium" "any" none "0").2.1 0
     (by decide) (by decide),
   ⟨by decide, by decide, by decide⟩,
   (task_validation_spec.1 [] [] 1 2 "x" "abc" "medium" "any" none "0").2.2
     (by decide) (by decide) (by decide),
   by decide,
   (task_validation_spec.2 [⟨7, "t", 30, false, "medium", "any", some 1, 1, none⟩] [] 1 7
     "" "30" "medium" "any" none ⟨7, "t", 30, false, "medium", "any", some 1, 1, none⟩
     (by decide)).1 (Or.inl rfl)⟩

/-- A successful `add_task` appends exactly the newly constructed task. -/
lemma add_task_done (tasks : List Task) (cats : List Category) (uid nid : Nat)
    (d et p tb : String) (c : Option Nat) (o : String) (l : List Task)
    (h : add_task tasks cats uid nid d et p tb c o = Outcome.done l) :
    ∃ n : Int, pyInt et = some n ∧ 0 < n ∧
      l = tasks ++
        [{ id := nid, description := d, estimated_time := n,
           is_completed := false, priority := p, time_block := tb,
           order_index := some (orZero (sqlMax ((tasks.filter
             (fun e => e.user_id == uid)).map (fun e => e.order_index))) + 1),
           user_id := uid, category_id := resolve_category cats uid c }] := by
  unfold add_task at h
  split at h
  · exact absurd h (by simp)
  · cases hp : pyInt et with
    | none => rw [hp] at h; exact absurd h (by simp)
    | some n =>
      rw [hp] at h
      dsimp only at h
      by_cases hn : n ≤ 0
      · rw [if_pos hn] at h; exact absurd h (by simp)
      · rw [if_neg hn] at h
        simp only [Outcome.done.injEq] at h
        exact ⟨n, rfl, not_le.mp hn, h.symm⟩

/-- A successful `add_subtask` appends exactly the newly constructed
subtask. -/
lemma add_subtask_some (t : Task) (subs : List Subtask) (nid : Nat) (d : String)
    (t' : Task) (l : List Subtask)
    (h : add_subtask t subs nid d = some (t', l)) :
    d ≠ "" ∧ l = subs ++
      [{ id := nid, description := d, is_completed := false,
         order_index := some (orZero (sqlMax (subs.map (fun s => s.order_index))) + 1),
         task_id := t.id }] := by
  unfold add_subtask at h
  by_cases hd : d = ""
  · rw [if_pos hd] at h; exact absurd h (by simp)
  · rw [if_neg hd] at h
    simp only [Option.some.injEq, Prod.mk.injEq] at h
    exact ⟨hd, h.2.symm⟩

/-- `sqlMax` over an appended singleton aggregates with `omax`. -/
lemma sqlMax_append_some (ks : List (Option Int)) (a : Int) :
    sqlMax (ks ++ [some a]) = omax (sqlMax ks) (some a) := by
  unfold sqlMax
  rw [List.foldl_append]
  rfl

/-- The appended value is never above the new aggregate. -/
lemma le_orZero_omax (m : Option Int) (a : Int) : a ≤ orZero (omax m (some a)) := by
  cases m with
  | none => simp [omax, orZero]
  | some b =>
    show a ≤ max b a
    exact le_max_right b a

/-- C5: a created task or subtask gets order key `max(existing keys in
scope) + 1` (key `1` on an empty scope), the client-supplied order value is
ignored, and two consecutive creations in the same scope yield strictly
increasing keys. -/
theorem append_order_key_spec :
    (∀ (tasks : List Task) (cats : List Category) (uid nid : Nat)
       (d et p tb : String) (c : Option Nat) (o : String) (n : Int),
       d ≠ "" → pyInt et = some n → 0 < n →
       ∃ nt : Task,
         add_task tasks cats uid nid d et p tb c o = Outcome.done (tasks ++ [nt]) ∧
         nt.user_id = uid ∧
         (tasks.filter (fun e => e.user_id == uid) = [] → nt.order_index = some 1) ∧
         (∀ m : Int, sqlMax ((tasks.filter (fun e => e.user_id == uid)).map
             (fun e => e.order_index)) = some m → nt.order_index = some (m + 1)) ∧
         (∀ o2 : String,
           add_task tasks cats uid nid d et p tb c o2
             = add_task tasks cats uid nid d et p tb c o)) ∧
    (∀ (tasks : List Task) (cats : List Category) (uid nid1 nid2 : Nat)
       (d1 et1 p1 tb1 d2 et2 p2 tb2 : String) (c1 c2 : Option Nat) (o1 o2 : String)
       (nt1 nt2 : Task),
       add_task tasks cats uid nid1 d1 et1 p1 tb1 c1 o1
         = Outcome.done (tasks ++ [nt1]) →
       add_task (tasks ++ [nt1]) cats uid nid2 d2 et2 p2 tb2 c2 o2
         = Outcome.done ((tasks ++ [nt1]) ++ [nt2]) →
       ∃ k1 k2 : Int, nt1.order_index = some k1 ∧ nt2.order_index = some k2 ∧ k1 < k2) ∧
    (∀ (t : Task) (subs : List Subtask) (nid : Nat) (d : String), d ≠ "" →
       ∃ (t' : Task) (ns : Subtask),
         add_subtask t subs nid d = some (t', subs ++ [ns]) ∧
         (subs = [] → ns.order_index = some 1) ∧
         (∀ m : Int, sqlMax (subs.map (fun s => s.order_index)) = some m →
           ns.order_index = some (m + 1))) ∧
    (∀ (t1 t2 t1' t2' : Task) (subs : List Subtask) (nid1 nid2 : Nat) (d1 d2 : String)
       (ns1 ns2 : Subtask),
       add_subtask t1 subs nid1 d1 = some (t1', subs ++ [ns1]) →
       add_subtask t2 (subs ++ [ns1]) nid2 d2 = some (t2', (subs ++ [ns1]) ++ [ns2]) →
       ∃ k1 k2 : Int, ns1.order_index = some k1 ∧ ns2.order_index = some k2 ∧ k1 < k2) := by
  refine ⟨?_, ?_, ?_, ?_⟩
  · intro tasks cats uid nid d et p tb c o n hd hn hpos
    refine
      ⟨{ id := nid, description := d, estimated_time := n,
         is_completed := false, priority := p, time_block := tb,
         order_index := some (orZero (sqlMax ((tasks.filter
           (fun e => e.user_id == uid)).map (fun e => e.order_index))) + 1),
         user_id := uid, category_id := resolve_category cats uid c }, ?_, rfl, ?_, ?_, ?_⟩
    · have he : et ≠ "" := by
        intro hc
        rw [hc, show pyInt "" = none from rfl] at hn
        exact absurd hn (by simp)
      simp [add_task, hd, he, hn, not_le.mpr hpos]
    · intro hfil
      simp [hfil, sqlMax, orZero]
    · intro m hm
      simp [hm, orZero]
    · intro o2
      rfl
  · intro tasks cats uid nid1 nid2 d1 et1 p1 tb1 d2 et2 p2 tb2 c1 c2 o1 o2 nt1 nt2 h1 h2
    obtain ⟨n1, -, -, hl1⟩ := add_task_done _ _ _ _ _ _ _ _ _ _ _ h1
    obtain ⟨n2, -, -, hl2⟩ := add_task_done _ _ _ _ _ _ _ _ _ _ _ h2
    have hnt1 := List.append_cancel_left hl1
    have hnt2 := List.append_cancel_left hl2
    simp only [List.cons.injEq, and_true] at hnt1 hnt2
    set ks := (tasks.filter (fun e => e.user_id == uid)).map (fun e => e.order_index)
      with hks
    set k1 := orZero (sqlMax ks) + 1 with hk1
    have hfil : (tasks ++ [nt1]).filter (fun e => e.user_id == uid)
        = tasks.filter (fun e => e.user_id == uid) ++ [nt1] := by
      rw [List.filter_append]
      congr 1
      rw [hnt1]
      simp
    have hmap : ((tasks ++ [nt1]).filter (fun e => e.user_id == uid)).map
        (fun e => e.order_index) = ks ++ [some k1] := by
      rw [hfil, List.map_append, hks]
      congr 1
      rw [hnt1]
      rfl
    have hk2 : nt2.order_index = some (orZero (omax (sqlMax ks) (some k1)) + 1) := by
      rw [hnt2]
      dsimp only
      rw [hmap, sqlMax_append_some]
    refine ⟨k1, orZero (omax (sqlMax ks) (some k1)) + 1, by rw [hnt1], hk2, ?_⟩
    have := le_orZero_omax (sqlMax ks) k1
    omega
  · intro t subs nid d hd
    refine
      ⟨(if t.is_completed then { t with is_completed := false } else t),
       { id := nid, description := d, is_completed := false,
         order_index := some (orZero (sqlMax (subs.map (fun s => s.order_index))) + 1),
         task_id := t.id }, ?_, ?_, ?_⟩
    · simp [add_subtask, hd]
    · intro hfil
      simp [hfil, sqlMax, orZero]
    · intro m hm
      simp [hm, orZero]
  · intro t1 t2 t1' t2' subs nid1 nid2 d1 d2 ns1 ns2 h1 h2
    obtain ⟨-, hl1⟩ := add_subtask_some _ _ _ _ _ _ h1
    obtain ⟨-, hl2⟩ := add_subtask_some _ _ _ _ _ _ h2
    have hns1 := List.append_cancel_left hl1
    have hns2 := List.append_cancel_left hl2
    simp only [List.cons.injEq, and_true] at hns1 hns2
    set ks := subs.map (fun s => s.order_index) with hks
    set k1 := orZero (sqlMax ks) + 1 with hk1
    have hmap : (subs ++ [ns1]).map (fun s => s.order_index) = ks ++ [some k1] := by
      rw [List.map_append, hks]
      congr 1
      rw [hns1]
      rfl
    have hk2 : ns2.order_index = some (orZero (omax (sqlMax ks) (some k1)) + 1) := by
      rw [hns2]
      dsimp only
      rw [hmap, sqlMax_append_some]
    refine ⟨k1, orZero (omax (sqlMax ks) (some k1)) + 1, by rw [hns1], hk2, ?_⟩
    have := le_orZero_omax (sqlMax ks) k1
    omega

/-- Witness for C5: creating two tasks for user 1 on an empty store yields
keys 1 and 2, and creating a subtask on a task whose subtask scope has
maximal key 4 yields key 5. -/
theorem append_order_key_spec_witness :
    (("a" : String) ≠ "" ∧ pyInt "30" = some 30 ∧ (0 : Int) < 30 ∧
     ∃ nt : Task,
       add_task [] [] 1 1 "a" "30" "medium" "any" none "9"
         = Outcome.done ([] ++ [nt]) ∧
       nt.user_id = 1 ∧
       (([] : List Task).filter (fun e => e.user_id == 1) = [] →
         nt.order_index = some 1) ∧
       (∀ m : Int, sqlMax ((([] : List Task).filter (fun e => e.user_id == 1)).map
           (fun e => e.order_index)) = some m → nt.order_index = some (m + 1)) ∧
       (∀ o2 : String,
         add_task [] [] 1 1 "a" "30" "medium" "any" none o2
           = add_task [] [] 1 1 "a" "30" "medium" "any" none "9")) ∧
    (("s" : String) ≠ "" ∧
     ∃ (t' : Task) (ns : Subtask),
       add_subtask ⟨1, "t", 30, false, "medium", "any", some 1, 1, none⟩
           [⟨1, "a", false, some 4, 1⟩] 2 "s"
         = some (t', [⟨1, "a", false, some 4, 1⟩] ++ [ns]) ∧
       ([⟨1, "a", false, some 4, 1⟩] = ([] : List Subtask) → ns.order_index = some 1) ∧
       (∀ m : Int,
         sqlMax (([⟨1, "a", false, some 4, 1⟩] : List Subtask).map
           (fun s => s.order_index)) = some m → ns.order_index = some (m + 1))) :=
  ⟨⟨by decide, by decide, by decide,
    append_order_key_spec.1 [] [] 1 1 "a" "30" "medium" "any" none "9" 30
      (by decide) (by decide) (by decide)⟩,
   ⟨by decide,
    (append_order_key_spec.2.2.1 ⟨1, "t", 30, false, "medium", "any", some 1, 1, none⟩
      [⟨1, "a", false, some 4, 1⟩] 2 "s" (by decide))⟩⟩

/-- Route `reset_all_tasks` (src/app.py lines 518-528): set every task of
the acting user and every subtask of those tasks to incomplete; the whole
task and subtask tables are passed, tasks of other users are not touched. -/
def reset_all_tasks (tasks : List Task) (subs : List Subtask) (uid : Nat) :
    List Task × List Subtask :=
  (tasks.map (fun t => if t.user_id == uid then { t with is_completed := false } else t),
   subs.map (fun s =>
     if tasks.any (fun t => t.id == s.task_id && t.user_id == uid) then
       { s with is_completed := false }
     else s))

/-- C10: `reset_all_tasks` clears the completion flag of every task owned by
the acting user and of every subtask of those tasks, changes no other field
of any row, and leaves every row of other users (tasks and their subtasks)
entirely unchanged. -/
theorem reset_all_tasks_spec (tasks : List Task) (subs : List Subtask) (uid : Nat) :
    (reset_all_tasks tasks subs uid).1.length = tasks.length ∧
    (reset_all_tasks tasks subs uid).2.length = subs.length ∧
    (∀ i : Nat, i < tasks.length →
      ∃ t t' : Task, tasks[i]? = some t ∧ (reset_all_tasks tasks subs uid).1[i]? = some t' ∧
        t'.id = t.id ∧ t'.description = t.description ∧
        t'.estimated_time = t.estimated_time ∧ t'.priority = t.priority ∧
        t'.time_block = t.time_block ∧ t'.order_index = t.order_index ∧
        t'.user_id = t.user_id ∧ t'.category_id = t.category_id ∧
        t'.is_completed = (if t.user_id = uid then false else t.is_completed)) ∧
    (∀ i : Nat, i < subs.length →
      ∃ s s' : Subtask, subs[i]? = some s ∧
        (reset_all_tasks tasks subs uid).2[i]? = some s' ∧
        s'.id = s.id ∧ s'.description = s.description ∧
        s'.order_index = s.order_index ∧ s'.task_id = s.task_id ∧
        s'.is_completed =
          (if ∃ t ∈ tasks, t.id = s.task_id ∧ t.user_id = uid then false
           else s.is_completed)) := by
  refine ⟨by simp [reset_all_tasks], by simp [reset_all_tasks], ?_, ?_⟩
  · intro i hi
    have hT : tasks[i]? = some tasks[i] := List.getElem?_eq_getElem hi
    set t := tasks[i] with hti
    refine ⟨t, if t.user_id == uid then { t with is_completed := false } else t, hT, ?_, ?_⟩
    · show (tasks.map (fun t =>
        if t.user_id == uid then { t with is_completed := false } else t))[i]? = _
      rw [List.getElem?_map, hT]
      rfl
    · by_cases hu : t.user_id = uid
      · simp [hu]
      · have : (t.user_id == uid) = false := by simp [hu]
        simp [this, hu]
  · intro i hi
    have hS : subs[i]? = some subs[i] := List.getElem?_eq_getElem hi
    set s := subs[i] with hsi
    refine ⟨s,
      if tasks.any (fun t => t.id == s.task_id && t.user_id == uid) then
        { s with is_completed := false }
      else s, hS, ?_, ?_⟩
    · show (subs.map (fun s =>
        if tasks.any (fun t => t.id == s.task_id && t.user_id == uid) then
          { s with is_completed := false }
        else s))[i]? = _
      rw [List.getElem?_map, hS]
      rfl
    · by_cases ha : tasks.any (fun t => t.id == s.task_id && t.user_id == uid) = true
      · have hexy : ∃ t ∈ tasks, t.id = s.task_id ∧ t.user_id = uid := by
          rcases List.any_eq_true.mp ha with ⟨t, htm, hcond⟩
          simp only [Bool.and_eq_true, beq_iff_eq] at hcond
          exact ⟨t, htm, hcond.1, hcond.2⟩
        simp [ha, hexy]
      · have hnex : ¬ ∃ t ∈ tasks, t.id = s.task_id ∧ t.user_id = uid := by
          rintro ⟨t, htm, h1, h2⟩
          exact ha (List.any_eq_true.mpr ⟨t, htm, by simp [h1, h2]⟩)
        have ha' : tasks.any (fun t => t.id == s.task_id && t.user_id == uid) = false :=
          Bool.eq_false_iff.mpr ha
        simp [ha', hnex]

/-- Witness for C10: user 1 owns the first task whose flag and whose
subtask flag are cleared; user 2's task and subtask are untouched. -/
theorem reset_all_tasks_spec_witness :
    ((0 : Nat) < 2 ∧ (0 : Nat) < 2) ∧
    (reset_all_tasks
        [⟨1, "a", 30, true, "high", "morning", some 1, 1, none⟩,
         ⟨2, "b", 30, true, "low", "any", some 2, 2, none⟩]
        [⟨1, "s1", true, some 1, 1⟩, ⟨2, "s2", true, some 1, 2⟩] 1).1.length = 2 ∧
    (∃ t t' : Task,
      ([⟨1, "a", 30, true, "high", "morning", some 1, 1, none⟩,
        ⟨2, "b", 30, true, "low", "any", some 2, 2, none⟩] : List Task)[0]? = some t ∧
      (reset_all_tasks
        [⟨1, "a", 30, true, "high", "morning", some 1, 1, none⟩,
         ⟨2, "b", 30, true, "low", "any", some 2, 2, none⟩]
        [⟨1, "s1", true, some 1, 1⟩, ⟨2, "s2", true, some 1, 2⟩] 1).1[0]? = some t' ∧
      t'.id = t.id ∧ t'.description = t.description ∧
      t'.estimated_time = t.estimated_time ∧ t'.priority = t.priority ∧
      t'.time_block = t.time_block ∧ t'.order_index = t.order_index ∧
      t'.user_id = t.user_id ∧ t'.category_id = t.category_id ∧
      t'.is_completed = (if t.user_id = 1 then false else t.is_completed)) ∧
    (∃ s s' : Subtask,
      ([⟨1, "s1", true, some 1, 1⟩, ⟨2, "s2", true, some 1, 2⟩] : List Subtask)[1]?
        = some s ∧
      (reset_all_tasks
        [⟨1, "a", 30, true, "high", "morning", some 1, 1, none⟩,
         ⟨2, "b", 30, true, "low", "any", some 2, 2, none⟩]
        [⟨1, "s1", true, some 1, 1⟩, ⟨2, "s2", true, some 1, 2⟩] 1).2[1]? = some s' ∧
      s'.id = s.id ∧ s'.description = s.description ∧
      s'.order_index = s.order_index ∧ s'.task_id = s.task_id ∧
      s'.is_completed =
        (if ∃ t ∈ ([⟨1, "a", 30, true, "high", "morning", some 1, 1, none⟩,
             ⟨2, "b", 30, true, "low", "any", some 2, 2, none⟩] : List Task),
             t.id = s.task_id ∧ t.user_id = 1 then false
         else s.is_completed)) :=
  ⟨⟨by decide, by decide⟩,
   (reset_all_tasks_spec
     [⟨1, "a", 30, true, "high", "morning", some 1, 1, none⟩,
      ⟨2, "b", 30, true, "low", "any", some 2, 2, none⟩]
     [⟨1, "s1", true, some 1, 1⟩, ⟨2, "s2", true, some 1, 2⟩] 1).1,
   (reset_all_tasks_spec
     [⟨1, "a", 30, true, "high", "morning", some 1, 1, none⟩,
      ⟨2, "b", 30, true, "low", "any", some 2, 2, none⟩]
     [⟨1, "s1", true, some 1, 1⟩, ⟨2, "s2", true, some 1, 2⟩] 1).2.2.1 0 (by decide),
   (reset_all_tasks_spec
     [⟨1, "a", 30, true, "high", "morning", some 1, 1, none⟩,
      ⟨2, "b", 30, true, "low", "any", some 2, 2, none⟩]
     [⟨1, "s1", true, some 1, 1⟩, ⟨2, "s2", true, some 1, 2⟩] 1).2.2.2 1 (by decide)⟩

/-- Python dict `priority_order` (src/app.py line 281) as a lookup. -/
def priority_order (p : String) : Option Nat :=
  if p = "high" then some 1 else if p = "medium" then some 2
  else if p = "low" then some 3 else none

/-- Python dict `time_block_order` (src/app.py line 282) as a lookup. -/
def time_block_order (b : String) : Option Nat :=
  if b = "morning" then some 1 else if b = "afternoon" then some 2
  else if b = "evening" then some 3 else if b = "any" then some 4 else none

/-- The lexicographically compared sort tuple produced by `task_sort_key`. -/
abbrev SortKey : Type := Lex (Nat × Lex (Int × Lex (Nat × Lex (Nat × String))))

/-- Inner `task_sort_key` of `sort_tasks` (src/app.py lines 284-296):
completion (incomplete first), order key with NULL replaced by the sentinel
999, time-block rank (99 for unknown), priority rank (99 for unknown),
lower-cased description. Python compares such tuples lexicographically,
which the `Lex` product order models. -/
def task_sort_key (t : Task) : SortKey :=
  toLex ((if t.is_completed then 1 else 0),
    toLex (t.order_index.getD 999,
      toLex ((time_block_order t.time_block).getD 99,
        toLex ((priority_order t.priority).getD 99, t.description.toLower))))

/-- Comparison by sort key; Python `sorted` orders by `task_sort_key`
ascending. -/
def taskLE (a b : Task) : Prop := task_sort_key a ≤ task_sort_key b

instance : DecidableRel taskLE := fun a b =>
  inferInstanceAs (Decidable (task_sort_key a ≤ task_sort_key b))

instance : IsTotal Task taskLE := ⟨fun a b => le_total (task_sort_key a) (task_sort_key b)⟩

instance : IsTrans Task taskLE := ⟨fun _ _ _ h1 h2 => le_trans h1 h2⟩

/-- `sort_tasks` (src/app.py lines 280-298): Python `sorted` is a stable
sort by `task_sort_key`; insertion sort with the total preorder `taskLE`
computes exactly that stable result. -/
def sort_tasks (tasks : List Task) : List Task := List.insertionSort taskLE tasks

/-- C4 counterexample: two incomplete tasks, one with order key 1000, one
with a NULL order key; the NULL key becomes the sentinel 999 < 1000, so the
null-keyed task sorts before the present-keyed one, refuting the claim that
a null-keyed task sorts after every same-cohort task with a present key. -/
theorem sort_tasks_null_key_counterexample :
    sort_tasks [⟨1, "a", 30, false, "high", "morning", some 1000, 1, none⟩,
                ⟨2, "b", 30, false, "high", "morning", none, 1, none⟩]
      = [⟨2, "b", 30, false, "high", "morning", none, 1, none⟩,
         ⟨1, "a", 30, false, "high", "morning", some 1000, 1, none⟩] ∧
    (⟨2, "b", 30, false, "high", "morning", none, 1, none⟩ : Task).order_index = none ∧
    (⟨1, "a", 30, false, "high", "morning", some 1000, 1, none⟩ : Task).order_index
      = some 1000 ∧
    (⟨2, "b", 30, false, "high", "morning", none, 1, none⟩ : Task).is_completed
      = (⟨1, "a", 30, false, "high", "morning", some 1000, 1, none⟩ : Task).is_completed := by
  decide

/-- Inserting into a list changes the filter-by-fixed-key residue only by
consing the new element when its key matches: the walked-over prefix
consists of strictly smaller keys. -/
lemma filter_orderedInsert (K : SortKey) (a : Task) (l : List Task) :
    (List.orderedInsert taskLE a l).filter (fun x => decide (task_sort_key x = K))
      = if task_sort_key a = K
        then a :: l.filter (fun x => decide (task_sort_key x = K))
        else l.filter (fun x => decide (task_sort_key x = K)) := by
  induction l with
  | nil =>
    by_cases hK : task_sort_key a = K
    · simp [List.orderedInsert, hK]
    · simp [List.orderedInsert, hK]
  | cons b bs ih =>
    rw [List.orderedInsert]
    by_cases hab : taskLE a b
    · rw [if_pos hab]
      by_cases hK : task_sort_key a = K
      · simp [List.filter_cons, hK]
      · simp [List.filter_cons, hK]
    · rw [if_neg hab]
      have hlt : task_sort_key b < task_sort_key a := not_le.mp hab
      by_cases hbK : task_sort_key b = K
      · have haK : task_sort_key a ≠ K := by
          intro hc
          rw [hc, ← hbK] at hlt
          exact absurd hlt (lt_irrefl _)
        rw [List.filter_cons, List.filter_cons]
        simp only [hbK, decide_eq_true_eq, if_true, ih, if_neg haK]
      · rw [List.filter_cons, List.filter_cons]
        simp only [decide_eq_true_eq, hbK, if_false, ih]

/-- Stability of `sort_tasks`: for every fixed key value the subsequence of
tasks with that key is unchanged, i.e. ties keep their input order. -/
lemma filter_insertionSort (K : SortKey) (l : List Task) :
    (List.insertionSort taskLE l).filter (fun x => decide (task_sort_key x = K))
      = l.filter (fun x => decide (task_sort_key x = K)) := by
  induction l with
  | nil => rfl
  | cons a l ih =>
    rw [List.insertionSort, filter_orderedInsert]
    by_cases hK : task_sort_key a = K
    · rw [if_pos hK, ih, List.filter_cons]
      simp [hK]
    · rw [if_neg hK, ih, List.filter_cons]
      simp [hK]

/-- C4 amended: `sort_tasks` returns a permutation of its input, sorted by
the lexicographic key (completion with incomplete first; order key with
NULL replaced by the sentinel 999; time block morning=1, afternoon=2,
evening=3, any=4; priority high=1, medium=2, low=3; lower-cased
description), ties preserving input order; consequently a null-keyed task
never precedes a same-cohort task whose present order key is below 999 —
not below every present key, since keys of 999 or more sort at or before
the sentinel. -/
theorem sort_tasks_ordering (ts : List Task) :
    (sort_tasks ts).Perm ts ∧
    (sort_tasks ts).Pairwise taskLE ∧
    (∀ K : SortKey, (sort_tasks ts).filter (fun x => decide (task_sort_key x = K))
        = ts.filter (fun x => decide (task_sort_key x = K))) ∧
    (∀ i j : Fin (sort_tasks ts).length, i < j →
      ((sort_tasks ts).get i).is_completed = ((sort_tasks ts).get j).is_completed →
      ((sort_tasks ts).get i).order_index = none →
      ∀ k : Int, ((sort_tasks ts).get j).order_index = some k → 999 ≤ k) := by
  refine ⟨List.perm_insertionSort taskLE ts, List.sorted_insertionSort taskLE ts,
    fun K => filter_insertionSort K ts, ?_⟩
  intro i j hij hcomp hnull k hk
  have hle : taskLE ((sort_tasks ts).get i) ((sort_tasks ts).get j) :=
    (List.pairwise_iff_get.mp (List.sorted_insertionSort taskLE ts)) i j hij
  by_contra hklt
  push_neg at hklt
  have hlt : task_sort_key ((sort_tasks ts).get j)
      < task_sort_key ((sort_tasks ts).get i) := by
    unfold task_sort_key
    rw [hcomp, hnull, hk]
    simp only [Option.getD_some, Option.getD_none]
    rw [Prod.Lex.lt_iff]
    right
    refine ⟨rfl, ?_⟩
    rw [Prod.Lex.lt_iff]
    left
    exact hklt
  exact absurd hle (not_le.mpr hlt)

/-- Witness for C4 (amended): on a concrete three-task list the sorter puts
the null-keyed incomplete task before the incomplete task with key 1000 and
both before the complete task, and the theorem yields `999 ≤ 1000` for that
pair. -/
theorem sort_tasks_ordering_witness :
    (sort_tasks [⟨1, "a", 30, false, "high", "morning", some 1000, 1, none⟩,
                 ⟨2, "b", 30, false, "high", "morning", none, 1, none⟩,
                 ⟨3, "c", 30, true, "high", "morning", some 1, 1, none⟩]).Perm
      [⟨1, "a", 30, false, "high", "morning", some 1000, 1, none⟩,
       ⟨2, "b", 30, false, "high", "morning", none, 1, none⟩,
       ⟨3, "c", 30, true, "high", "morning", some 1, 1, none⟩] ∧
    sort_tasks [⟨1, "a", 30, false, "high", "morning", some 1000, 1, none⟩,
                ⟨2, "b", 30, false, "high", "morning", none, 1, none⟩,
                ⟨3, "c", 30, true, "high", "morning", some 1, 1, none⟩]
      = [⟨2, "b", 30, false, "high", "morning", none, 1, none⟩,
         ⟨1, "a", 30, false, "high", "morning", some 1000, 1, none⟩,
         ⟨3, "c", 30, true, "high", "morning", some 1, 1, none⟩] ∧
    (999 : Int) ≤ 1000 :=
  ⟨(sort_tasks_ordering
      [⟨1, "a", 30, false, "high", "morning", some 1000, 1, none⟩,
       ⟨2, "b", 30, false, "high", "morning", none, 1, none⟩,
       ⟨3, "c", 30, true, "high", "morning", some 1, 1, none⟩]).1,
   by decide,
   (sort_tasks_ordering
      [⟨1, "a", 30, false, "high", "morning", some 1000, 1, none⟩,
       ⟨2, "b", 30, false, "high", "morning", none, 1, none⟩,
       ⟨3, "c", 30, true, "high", "morning", some 1, 1, none⟩]).2.2.2
     ⟨0, by decide⟩ ⟨1, by decide⟩ (by decide) (by decide) (by decide) 1000 (by decide)⟩

/-- Row accessors and key update shared by task rows and subtask rows,
with the algebraic laws the move handlers rely on (updating `order_index`
touches no other column). -/
structure EntityOps (α : Type) where
  eid : α → Nat
  key : α → Option Int
  done : α → Bool
  setKey : α → Option Int → α
  eid_setKey : ∀ a k, eid (setKey a k) = eid a
  key_setKey : ∀ a k, key (setKey a k) = k
  done_setKey : ∀ a k, done (setKey a k) = done a
  setKey_key : ∀ a, setKey a (key a) = a
  setKey_setKey : ∀ a k j, setKey (setKey a k) j = setKey a j

/-- `ORDER BY ... LIMIT 1`: an element no other list element strictly beats
(first such in list order; the SQL row order between exact ties is
unspecified, and the theorems below assume distinct keys where it could
matter). -/
def pickBest {α : Type} (b : α → α → Bool) : List α → Option α
  | [] => none
  | x :: xs =>
    match pickBest b xs with
    | none => some x
    | some m => if b x m then some x else some m

lemma pickBest_eq_none {α : Type} (b : α → α → Bool) (l : List α) :
    pickBest b l = none ↔ l = [] := by
  cases l with
  | nil => simp [pickBest]
  | cons x xs =>
    simp only [pickBest]
    cases pickBest b xs with
    | none => simp
    | some m =>
      by_cases hb : b x m = true
      · simp [hb]
      · simp [hb]

lemma pickBest_some_of_ne_nil {α : Type} (b : α → α → Bool) (l : List α)
    (h : l ≠ []) : ∃ m, pickBest b l = some m := by
  cases hp : pickBest b l with
  | none => exact absurd ((pickBest_eq_none b l).mp hp) h
  | some m => exact ⟨m, rfl⟩

lemma pickBest_mem {α : Type} (b : α → α → Bool) (l : List α) (m : α)
    (h : pickBest b l = some m) : m ∈ l := by
  induction l with
  | nil => simp [pickBest] at h
  | cons x xs ih =>
    simp only [pickBest] at h
    cases hp : pickBest b xs with
    | none =>
      rw [hp] at h
      simp only [Option.some.injEq] at h
      exact h ▸ List.mem_cons_self x xs
    | some m0 =>
      rw [hp] at h
      dsimp only at h
      by_cases hb : b x m0 = true
      · rw [if_pos hb] at h
        simp only [Option.some.injEq] at h
        exact h ▸ List.mem_cons_self x xs
      · rw [if_neg hb] at h
        simp only [Option.some.injEq] at h
        exact List.mem_cons_of_mem x (ih (h ▸ hp))

lemma pickBest_best {α : Type} (b : α → α → Bool)
    (hirr : ∀ a, b a a = false)
    (htr : ∀ x y z, b x y = true → b y z = true → b x z = true)
    (l : List α) (m : α) (h : pickBest b l = some m) :
    ∀ x ∈ l, b x m = false := by
  induction l generalizing m with
  | nil => simp [pickBest] at h
  | cons a xs ih =>
    intro x hx
    simp only [pickBest] at h
    cases hp : pickBest b xs with
    | none =>
      rw [hp] at h
      simp only [Option.some.injEq] at h
      subst h
      have hxs : xs = [] := (pickBest_eq_none b xs).mp hp
      rcases List.mem_cons.mp hx with rfl | hmem
      · exact hirr _
      · rw [hxs] at hmem; cases hmem
    | some m0 =>
      rw [hp] at h
      dsimp only at h
      by_cases hb : b a m0 = true
      · rw [if_pos hb] at h
        simp only [Option.some.injEq] at h
        subst h
        rcases List.mem_cons.mp hx with rfl | hmem
        · exact hirr _
        · have hxm0 := ih m0 hp x hmem
          by_contra hc
          have hxm : b x a = true := by
            revert hc; cases b x a <;> simp
          have := htr x a m0 hxm hb
          rw [this] at hxm0
          cases hxm0
      · rw [if_neg hb] at h
        simp only [Option.some.injEq] at h
        subst h
        rcases List.mem_cons.mp hx with rfl | hmem
        · revert hb; cases b x m0 <;> simp
        · exact ih m0 hp x hmem

lemma optLt_irrefl (a : Option Int) : optLt a a = false := by
  cases a <;> simp [optLt]

lemma optLt_trans {a b c : Option Int} (h1 : optLt a b = true)
    (h2 : optLt b c = true) : optLt a c = true := by
  cases a <;> cases b <;> cases c <;> simp_all [optLt] <;> omega

lemma optLt_somes {a b : Option Int} (h : optLt a b = true) :
    ∃ x y, a = some x ∧ b = some y ∧ x < y := by
  cases a <;> cases b <;> simp_all [optLt]

lemma optLt_ne {a b : Option Int} (h : optLt a b = true) : a ≠ b := by
  obtain ⟨x, y, rfl, rfl, hxy⟩ := optLt_somes h
  intro hc
  simp only [Option.some.injEq] at hc
  omega

/-- Simultaneous exchange of the `order_index` values of the rows with the
ids of `t` and `p` (the Python tuple-swap of the two ORM objects). -/
def genSwap {α : Type} (O : EntityOps α) (t p : α) (l : List α) : List α :=
  l.map (fun e =>
    if O.eid e == O.eid t then O.setKey e (O.key p)
    else if O.eid e == O.eid p then O.setKey e (O.key t)
    else e)

/-- Common body of the four move-up/move-down handlers: find, among the
rows of the same scope and same completion cohort, the one with the
greatest key strictly below the target's; if none exists do nothing,
otherwise swap the two keys. -/
def genMoveUp {α : Type} (O : EntityOps α) (scope : α → Bool) (l : List α) (t : α) :
    List α :=
  match pickBest (fun x m => optLt (O.key m) (O.key x))
      (l.filter (fun e => scope e && optLt (O.key e) (O.key t)
        && (O.done e == O.done t))) with
  | none => l
  | some p => genSwap O t p l

/-- Symmetric to `genMoveUp`: the least key strictly above the target's. -/
def genMoveDown {α : Type} (O : EntityOps α) (scope : α → Bool) (l : List α) (t : α) :
    List α :=
  match pickBest (fun x m => optLt (O.key x) (O.key m))
      (l.filter (fun e => scope e && optLt (O.key t) (O.key e)
        && (O.done e == O.done t))) with
  | none => l
  | some p => genSwap O t p l

def taskOps : EntityOps Task where
  eid := Task.id
  key := Task.order_index
  done := Task.is_completed
  setKey := fun t k => { t with order_index := k }
  eid_setKey := fun _ _ => rfl
  key_setKey := fun _ _ => rfl
  done_setKey := fun _ _ => rfl
  setKey_key := fun _ => rfl
  setKey_setKey := fun _ _ _ => rfl

def subtaskOps : EntityOps Subtask where
  eid := Subtask.id
  key := Subtask.order_index
  done := Subtask.is_completed
  setKey := fun s k => { s with order_index := k }
  eid_setKey := fun _ _ => rfl
  key_setKey := fun _ _ => rfl
  done_setKey := fun _ _ => rfl
  setKey_key := fun _ => rfl
  setKey_setKey := fun _ _ _ => rfl

/-- Route `move_task_up` (src/app.py lines 596-613): the scope is the
acting user's tasks, the cohort is the task's completion flag. -/
def move_task_up (tasks : List Task) (uid tid : Nat) : List Task :=
  match tasks.find? (fun t => t.id == tid && t.user_id == uid) with
  | none => tasks
  | some t => genMoveUp taskOps (fun e => e.user_id == uid) tasks t

/-- Route `move_task_down` (src/app.py lines 615-632). -/
def move_task_down (tasks : List Task) (uid tid : Nat) : List Task :=
  match tasks.find? (fun t => t.id == tid && t.user_id == uid) with
  | none => tasks
  | some t => genMoveDown taskOps (fun e => e.user_id == uid) tasks t

/-- Route `move_subtask_up` (src/app.py lines 421-438): ownership is
checked through the join with the parent task; the scope is the parent
task's subtasks. -/
def move_subtask_up (tasks : List Task) (subs : List Subtask) (uid sid : Nat) :
    List Subtask :=
  match subs.find? (fun s => s.id == sid
      && tasks.any (fun tk => tk.id == s.task_id && tk.user_id == uid)) with
  | none => subs
  | some st => genMoveUp subtaskOps (fun e => e.task_id == st.task_id) subs st

/-- Route `move_subtask_down` (src/app.py lines 440-457). -/
def move_subtask_down (tasks : List Task) (subs : List Subtask) (uid sid : Nat) :
    List Subtask :=
  match subs.find? (fun s => s.id == sid
      && tasks.any (fun tk => tk.id == s.task_id && tk.user_id == uid)) with
  | none => subs
  | some st => genMoveDown subtaskOps (fun e => e.task_id == st.task_id) subs st

/-- Mapping a function that exchanges the images of two distinct list
members and fixes every other member permutes the mapped list. -/
lemma perm_map_swap {α β : Type} [DecidableEq α] (f g : α → β) (l : List α) (t p : α)
    (ht : t ∈ l) (hp : p ∈ l) (hnd : l.Nodup) (hne : t ≠ p)
    (hgt : g t = f p) (hgp : g p = f t)
    (hg : ∀ x ∈ l, x ≠ t → x ≠ p → g x = f x) :
    (l.map g).Perm (l.map f) := by
  have h1 : l.Perm (t :: l.erase t) := List.perm_cons_erase ht
  have hp1 : p ∈ l.erase t := (List.Nodup.mem_erase_iff hnd).mpr ⟨hne.symm, hp⟩
  have h2 : (l.erase t).Perm (p :: (l.erase t).erase p) := List.perm_cons_erase hp1
  have hperm : l.Perm (t :: p :: (l.erase t).erase p) := h1.trans (h2.cons t)
  set r := (l.erase t).erase p with hr
  have hrl : ∀ x ∈ r, x ∈ l ∧ x ≠ t ∧ x ≠ p := by
    intro x hx
    have hnd1 : (l.erase t).Nodup := hnd.erase t
    have h3 := (List.Nodup.mem_erase_iff hnd1).mp hx
    have h4 := (List.Nodup.mem_erase_iff hnd).mp h3.2
    exact ⟨h4.2, h4.1, h3.1⟩
  have hmapr : r.map g = r.map f :=
    List.map_congr_left fun x hx => hg x (hrl x hx).1 (hrl x hx).2.1 (hrl x hx).2.2
  have s1 : (l.map g).Perm ((t :: p :: r).map g) := hperm.map g
  have s2 : (t :: p :: r).map g = f p :: f t :: r.map f := by simp [hgt, hgp, hmapr]
  have s3 : (f p :: f t :: r.map f).Perm (f t :: f p :: r.map f) :=
    List.Perm.swap (f t) (f p) (r.map f)
  have s4 : (t :: p :: r).map f = f t :: f p :: r.map f := by simp
  have s5 : ((t :: p :: r).map f).Perm (l.map f) := (hperm.map f).symm
  have s2' : (l.map g).Perm (f p :: f t :: r.map f) := by rw [← s2]; exact s1
  have s5' : (f t :: f p :: r.map f).Perm (l.map f) := by rw [← s4]; exact s5
  exact s2'.trans (s3.trans s5')

/-- A key swap of two members with distinct keys permutes the key column. -/
lemma genSwap_map_key_perm {α : Type} [DecidableEq α] (O : EntityOps α)
    (l : List α) (t p : α) (ht : t ∈ l) (hp : p ∈ l)
    (hnd : (l.map O.eid).Nodup) (hkne : O.key t ≠ O.key p) :
    ((genSwap O t p l).map O.key).Perm (l.map O.key) := by
  have hlnd : l.Nodup := List.Nodup.of_map _ hnd
  have htp : t ≠ p := fun hc => hkne (by rw [hc])
  have hinj := List.inj_on_of_nodup_map hnd
  have heidpt : O.eid p ≠ O.eid t := fun hc => htp ((hinj hp ht hc).symm)
  rw [genSwap, List.map_map]
  apply perm_map_swap O.key _ l t p ht hp hlnd htp
  · show O.key (if O.eid t == O.eid t then O.setKey t (O.key p)
      else if O.eid t == O.eid p then O.setKey t (O.key t) else t) = O.key p
    simp [O.key_setKey]
  · show O.key (if O.eid p == O.eid t then O.setKey p (O.key p)
      else if O.eid p == O.eid p then O.setKey p (O.key t) else p) = O.key t
    rw [if_neg (by simp [heidpt]), if_pos (by simp)]
    exact O.key_setKey p (O.key t)
  · intro x hx hxt hxp
    show O.key (if O.eid x == O.eid t then O.setKey x (O.key p)
      else if O.eid x == O.eid p then O.setKey x (O.key t) else x) = O.key x
    have hxt2 : O.eid x ≠ O.eid t := fun hc => hxt (hinj hx ht hc)
    have hxp2 : O.eid x ≠ O.eid p := fun hc => hxp (hinj hx hp hc)
    rw [if_neg (by simp [hxt2]), if_neg (by simp [hxp2])]

/-- Behaviour split of `genMoveUp`: the key column is permuted; if no
same-scope same-cohort row has a strictly lower key nothing changes; and
the result is either the unchanged list or a two-row key swap with such a
lower-keyed row. -/
lemma genMoveUp_spec {α : Type} [DecidableEq α] (O : EntityOps α) (scope : α → Bool)
    (l : List α) (t : α) (ht : t ∈ l) (hnd : (l.map O.eid).Nodup) :
    ((genMoveUp O scope l t).map O.key).Perm (l.map O.key) ∧
    ((∀ e ∈ l, scope e = true → O.done e = O.done t →
        optLt (O.key e) (O.key t) = false) → genMoveUp O scope l t = l) ∧
    (genMoveUp O scope l t = l ∨
      ∃ p, p ∈ l ∧ scope p = true ∧ O.done p = O.done t ∧
        optLt (O.key p) (O.key t) = true ∧
        genMoveUp O scope l t = genSwap O t p l) := by
  cases hp : pickBest (fun x m => optLt (O.key m) (O.key x))
      (l.filter (fun e => scope e && optLt (O.key e) (O.key t)
        && (O.done e == O.done t))) with
  | none =>
    have hres : genMoveUp O scope l t = l := by rw [genMoveUp, hp]
    exact ⟨by rw [hres], fun _ => hres, Or.inl hres⟩
  | some p =>
    have hres : genMoveUp O scope l t = genSwap O t p l := by rw [genMoveUp, hp]
    have hpmem := pickBest_mem _ _ _ hp
    have hpl : p ∈ l := List.mem_of_mem_filter hpmem
    have hcond := List.of_mem_filter hpmem
    simp only [Bool.and_eq_true, beq_iff_eq] at hcond
    obtain ⟨⟨hps, hplt⟩, hpd⟩ := hcond
    refine ⟨?_, ?_, Or.inr ⟨p, hpl, hps, hpd, hplt, hres⟩⟩
    · rw [hres]
      exact genSwap_map_key_perm O l t p ht hpl hnd (fun hc => optLt_ne hplt hc.symm)
    · intro hno
      have := hno p hpl hps hpd
      rw [this] at hplt
      cases hplt

/-- Behaviour split of `genMoveDown`, symmetric to `genMoveUp_spec`. -/
lemma genMoveDown_spec {α : Type} [DecidableEq α] (O : EntityOps α) (scope : α → Bool)
    (l : List α) (t : α) (ht : t ∈ l) (hnd : (l.map O.eid).Nodup) :
    ((genMoveDown O scope l t).map O.key).Perm (l.map O.key) ∧
    ((∀ e ∈ l, scope e = true → O.done e = O.done t →
        optLt (O.key t) (O.key e) = false) → genMoveDown O scope l t = l) ∧
    (genMoveDown O scope l t = l ∨
      ∃ p, p ∈ l ∧ scope p = true ∧ O.done p = O.done t ∧
        optLt (O.key t) (O.key p) = true ∧
        genMoveDown O scope l t = genSwap O t p l) := by
  cases hp : pickBest (fun x m => optLt (O.key x) (O.key m))
      (l.filter (fun e => scope e && optLt (O.key t) (O.key e)
        && (O.done e == O.done t))) with
  | none =>
    have hres : genMoveDown O scope l t = l := by rw [genMoveDown, hp]
    exact ⟨by rw [hres], fun _ => hres, Or.inl hres⟩
  | some p =>
    have hres : genMoveDown O scope l t = genSwap O t p l := by rw [genMoveDown, hp]
    have hpmem := pickBest_mem _ _ _ hp
    have hpl : p ∈ l := List.mem_of_mem_filter hpmem
    have hcond := List.of_mem_filter hpmem
    simp only [Bool.and_eq_true, beq_iff_eq] at hcond
    obtain ⟨⟨hps, hplt⟩, hpd⟩ := hcond
    refine ⟨?_, ?_, Or.inr ⟨p, hpl, hps, hpd, hplt, hres⟩⟩
    · rw [hres]
      exact genSwap_map_key_perm O l t p ht hpl hnd (optLt_ne hplt)
    · intro hno
      have := hno p hpl hps hpd
      rw [this] at hplt
      cases hplt

/-- C7: each of the four move handlers leaves the multiset of order-key
values of its table unchanged — it is either a no-op (in particular when no
same-scope same-cohort row with a strictly lower, respectively higher, key
exists) or a swap of the keys of exactly two rows of the same scope and
cohort, every other row untouched. -/
theorem move_preserves_keys :
    (∀ (tasks : List Task) (uid tid : Nat), (tasks.map Task.id).Nodup →
      ((move_task_up tasks uid tid).map Task.order_index).Perm
        (tasks.map Task.order_index) ∧
      (∀ t, tasks.find? (fun e => e.id == tid && e.user_id == uid) = some t →
        (∀ e ∈ tasks, (e.user_id == uid) = true → e.is_completed = t.is_completed →
          optLt e.order_index t.order_index = false) →
        move_task_up tasks uid tid = tasks) ∧
      (move_task_up tasks uid tid = tasks ∨
        ∃ t p, tasks.find? (fun e => e.id == tid && e.user_id == uid) = some t ∧
          p ∈ tasks ∧ (p.user_id == uid) = true ∧ p.is_completed = t.is_completed ∧
          optLt p.order_index t.order_index = true ∧
          move_task_up tasks uid tid = genSwap taskOps t p tasks)) ∧
    (∀ (tasks : List Task) (uid tid : Nat), (tasks.map Task.id).Nodup →
      ((move_task_down tasks uid tid).map Task.order_index).Perm
        (tasks.map Task.order_index) ∧
      (∀ t, tasks.find? (fun e => e.id == tid && e.user_id == uid) = some t →
        (∀ e ∈ tasks, (e.user_id == uid) = true → e.is_completed = t.is_completed →
          optLt t.order_index e.order_index = false) →
        move_task_down tasks uid tid = tasks) ∧
      (move_task_down tasks uid tid = tasks ∨
        ∃ t p, tasks.find? (fun e => e.id == tid && e.user_id == uid) = some t ∧
          p ∈ tasks ∧ (p.user_id == uid) = true ∧ p.is_completed = t.is_completed ∧
          optLt t.order_index p.order_index = true ∧
          move_task_down tasks uid tid = genSwap taskOps t p tasks)) ∧
    (∀ (tasks : List Task) (subs : List Subtask) (uid sid : Nat),
      (subs.map Subtask.id).Nodup →
      ((move_subtask_up tasks subs uid sid).map Subtask.order_index).Perm
        (subs.map Subtask.order_index) ∧
      (∀ st, subs.find? (fun s => s.id == sid
          && tasks.any (fun tk => tk.id == s.task_id && tk.user_id == uid)) = some st →
        (∀ e ∈ subs, (e.task_id == st.task_id) = true →
          e.is_completed = st.is_completed →
          optLt e.order_index st.order_index = false) →
        move_subtask_up tasks subs uid sid = subs) ∧
      (move_subtask_up tasks subs uid sid = subs ∨
        ∃ st p, subs.find? (fun s => s.id == sid
            && tasks.any (fun tk => tk.id == s.task_id && tk.user_id == uid))
              = some st ∧
          p ∈ subs ∧ (p.task_id == st.task_id) = true ∧
          p.is_completed = st.is_completed ∧
          optLt p.order_index st.order_index = true ∧
          move_subtask_up tasks subs uid sid = genSwap subtaskOps st p subs)) ∧
    (∀ (tasks : List Task) (subs : List Subtask) (uid sid : Nat),
      (subs.map Subtask.id).Nodup →
      ((move_subtask_down tasks subs uid sid).map Subtask.order_index).Perm
        (subs.map Subtask.order_index) ∧
      (∀ st, subs.find? (fun s => s.id == sid
          && tasks.any (fun tk => tk.id == s.task_id && tk.user_id == uid)) = some st →
        (∀ e ∈ subs, (e.task_id == st.task_id) = true →
          e.is_completed = st.is_completed →
          optLt st.order_index e.order_index = false) →
        move_subtask_down tasks subs uid sid = subs) ∧
      (move_subtask_down tasks subs uid sid = subs ∨
        ∃ st p, subs.find? (fun s => s.id == sid
            && tasks.any (fun tk => tk.id == s.task_id && tk.user_id == uid))
              = some st ∧
          p ∈ subs ∧ (p.task_id == st.task_id) = true ∧
          p.is_completed = st.is_completed ∧
          optLt st.order_index p.order_index = true ∧
          move_subtask_down tasks subs uid sid = genSwap subtaskOps st p subs)) := by
  refine ⟨?_, ?_, ?_, ?_⟩
  · intro tasks uid tid hnd
    cases hf : tasks.find? (fun e => e.id == tid && e.user_id == uid) with
    | none =>
      have hres : move_task_up tasks uid tid = tasks := by rw [move_task_up, hf]
      refine ⟨by rw [hres], ?_, Or.inl hres⟩
      intro t hft _
      exact absurd hft (by simp)
    | some t0 =>
      have ht0 : t0 ∈ tasks := List.mem_of_find?_eq_some hf
      have hres : move_task_up tasks uid tid
          = genMoveUp taskOps (fun e => e.user_id == uid) tasks t0 := by
        rw [move_task_up, hf]
      obtain ⟨hperm, hnoop, hcase⟩ :=
        genMoveUp_spec taskOps (fun e => e.user_id == uid) tasks t0 ht0 hnd
      refine ⟨by rw [hres]; exact hperm, ?_, ?_⟩
      · intro t hft hno
        obtain rfl := Option.some.inj hft
        rw [hres]
        exact hnoop hno
      · rcases hcase with hid | ⟨p, hp1, hp2, hp3, hp4, hp5⟩
        · exact Or.inl (by rw [hres, hid])
        · exact Or.inr ⟨t0, p, rfl, hp1, hp2, hp3, hp4, by rw [hres, hp5]⟩
  · intro tasks uid tid hnd
    cases hf : tasks.find? (fun e => e.id == tid && e.user_id == uid) with
    | none =>
      have hres : move_task_down tasks uid tid = tasks := by rw [move_task_down, hf]
      refine ⟨by rw [hres], ?_, Or.inl hres⟩
      intro t hft _
      exact absurd hft (by simp)
    | some t0 =>
      have ht0 : t0 ∈ tasks := List.mem_of_find?_eq_some hf
      have hres : move_task_down tasks uid tid
          = genMoveDown taskOps (fun e => e.user_id == uid) tasks t0 := by
        rw [move_task_down, hf]
      obtain ⟨hperm, hnoop, hcase⟩ :=
        genMoveDown_spec taskOps (fun e => e.user_id == uid) tasks t0 ht0 hnd
      refine ⟨by rw [hres]; exact hperm, ?_, ?_⟩
      · intro t hft hno
        obtain rfl := Option.some.inj hft
        rw [hres]
        exact hnoop hno
      · rcases hcase with hid | ⟨p, hp1, hp2, hp3, hp4, hp5⟩
        · exact Or.inl (by rw [hres, hid])
        · exact Or.inr ⟨t0, p, rfl, hp1, hp2, hp3, hp4, by rw [hres, hp5]⟩
  · intro tasks subs uid sid hnd
    cases hf : subs.find? (fun s => s.id == sid
        && tasks.any (fun tk => tk.id == s.task_id && tk.user_id == uid)) with
    | none =>
      have hres : move_subtask_up tasks subs uid sid = subs := by
        rw [move_subtask_up, hf]
      refine ⟨by rw [hres], ?_, Or.inl hres⟩
      intro st hft _
      exact absurd hft (by simp)
    | some st0 =>
      have ht0 : st0 ∈ subs := List.mem_of_find?_eq_some hf
      have hres : move_subtask_up tasks subs uid sid
          = genMoveUp subtaskOps (fun e => e.task_id == st0.task_id) subs st0 := by
        rw [move_subtask_up, hf]
      obtain ⟨hperm, hnoop, hcase⟩ :=
        genMoveUp_spec subtaskOps (fun e => e.task_id == st0.task_id) subs st0 ht0 hnd
      refine ⟨by rw [hres]; exact hperm, ?_, ?_⟩
      · intro st hft hno
        obtain rfl := Option.some.inj hft
        rw [hres]
        exact hnoop hno
      · rcases hcase with hid | ⟨p, hp1, hp2, hp3, hp4, hp5⟩
        · exact Or.inl (by rw [hres, hid])
        · exact Or.inr ⟨st0, p, rfl, hp1, hp2, hp3, hp4, by rw [hres, hp5]⟩
  · intro tasks subs uid sid hnd
    cases hf : subs.find? (fun s => s.id == sid
        && tasks.any (fun tk => tk.id == s.task_id && tk.user_id == uid)) with
    | none =>
      have hres : move_subtask_down tasks subs uid sid = subs := by
        rw [move_subtask_down, hf]
      refine ⟨by rw [hres], ?_, Or.inl hres⟩
      intro st hft _
      exact absurd hft (by simp)
    | some st0 =>
      have ht0 : st0 ∈ subs := List.mem_of_find?_eq_some hf
      have hres : move_subtask_down tasks subs uid sid
          = genMoveDown subtaskOps (fun e => e.task_id == st0.task_id) subs st0 := by
        rw [move_subtask_down, hf]
      obtain ⟨hperm, hnoop, hcase⟩ :=
        genMoveDown_spec subtaskOps (fun e => e.task_id == st0.task_id) subs st0 ht0 hnd
      refine ⟨by rw [hres]; exact hperm, ?_, ?_⟩
      · intro st hft hno
        obtain rfl := Option.some.inj hft
        rw [hres]
        exact hnoop hno
      · rcases hcase with hid | ⟨p, hp1, hp2, hp3, hp4, hp5⟩
        · exact Or.inl (by rw [hres, hid])
        · exact Or.inr ⟨st0, p, rfl, hp1, hp2, hp3, hp4, by rw [hres, hp5]⟩

/-- Round trip of the move pair: when the target row (found by the lookup
predicate `q`) has a same-scope same-cohort row with a strictly lower key,
and the keys within the scope are distinct, `genMoveUp` swaps with the
closest such row and `genMoveDown` applied to the result (after re-finding
the moved target) undoes the swap exactly. -/
lemma genMove_roundtrip {α : Type} [DecidableEq α] (O : EntityOps α)
    (scope q : α → Bool) (l : List α) (t : α)
    (hscope : ∀ a k, scope (O.setKey a k) = scope a)
    (hq : ∀ a k, q (O.setKey a k) = q a)
    (hnd : (l.map O.eid).Nodup)
    (hkeys : ((l.filter scope).map O.key).Nodup)
    (hfind : l.find? q = some t)
    (hst : scope t = true)
    (hnb : ∃ e ∈ l, scope e = true ∧ O.done e = O.done t ∧
      optLt (O.key e) (O.key t) = true) :
    ∃ p, genMoveUp O scope l t = genSwap O t p l ∧
      (genSwap O t p l).find? q = some (O.setKey t (O.key p)) ∧
      genMoveDown O scope (genSwap O t p l) (O.setKey t (O.key p)) = l := by
  have hlnd : l.Nodup := List.Nodup.of_map _ hnd
  have hinj := List.inj_on_of_nodup_map hnd
  have htl : t ∈ l := List.mem_of_find?_eq_some hfind
  obtain ⟨e0, he0l, he0s, he0d, he0lt⟩ := hnb
  have he0c : e0 ∈ l.filter (fun e => scope e && optLt (O.key e) (O.key t)
      && (O.done e == O.done t)) :=
    List.mem_filter.mpr ⟨he0l, by simp [he0s, he0lt, he0d]⟩
  have hupne : l.filter (fun e => scope e && optLt (O.key e) (O.key t)
      && (O.done e == O.done t)) ≠ [] :=
    fun hc => by rw [hc] at he0c; exact absurd he0c (List.not_mem_nil e0)
  obtain ⟨p, hpick⟩ := pickBest_some_of_ne_nil
    (fun x m => optLt (O.key m) (O.key x)) _ hupne
  have hres1 : genMoveUp O scope l t = genSwap O t p l := by rw [genMoveUp, hpick]
  have hpmem := pickBest_mem _ _ _ hpick
  have hpl : p ∈ l := List.mem_of_mem_filter hpmem
  have hpcond := List.of_mem_filter hpmem
  simp only [Bool.and_eq_true, beq_iff_eq] at hpcond
  obtain ⟨⟨hps, hplt⟩, hpd⟩ := hpcond
  have hmax : ∀ x ∈ l.filter (fun e => scope e && optLt (O.key e) (O.key t)
      && (O.done e == O.done t)), optLt (O.key p) (O.key x) = false :=
    pickBest_best (fun x m => optLt (O.key m) (O.key x))
      (fun a => optLt_irrefl (O.key a))
      (fun _ _ _ h1 h2 => optLt_trans h2 h1) _ p hpick
  obtain ⟨kp, kt, hkp, hkt, hkplt⟩ := optLt_somes hplt
  have htp : t ≠ p := fun hc => optLt_ne hplt (by rw [hc])
  have heidpt : O.eid p ≠ O.eid t := fun hc => htp ((hinj hpl htl hc).symm)
  set t2 := O.setKey t (O.key p) with ht2
  set p2 := O.setKey p (O.key t) with hp2
  set g := fun e => if O.eid e == O.eid t then O.setKey e (O.key p)
    else if O.eid e == O.eid p then O.setKey e (O.key t) else e with hgdef
  have hswap : genSwap O t p l = l.map g := by rw [genSwap]
  have hgt : g t = t2 := by
    rw [hgdef]; dsimp only
    rw [if_pos (by simp)]
  have hgp : g p = p2 := by
    rw [hgdef]; dsimp only
    rw [if_neg (by simp [heidpt]), if_pos (by simp)]
  have hgother : ∀ x, O.eid x ≠ O.eid t → O.eid x ≠ O.eid p → g x = x := by
    intro x h1 h2
    rw [hgdef]; dsimp only
    rw [if_neg (by simp [h1]), if_neg (by simp [h2])]
  have hg_eid : ∀ e, O.eid (g e) = O.eid e := by
    intro e
    rw [hgdef]; dsimp only
    by_cases h1 : (O.eid e == O.eid t) = true
    · rw [if_pos h1]; exact O.eid_setKey _ _
    · rw [if_neg h1]
      by_cases h2 : (O.eid e == O.eid p) = true
      · rw [if_pos h2]; exact O.eid_setKey _ _
      · rw [if_neg h2]
  have hg_scope : ∀ e, scope (g e) = scope e := by
    intro e
    rw [hgdef]; dsimp only
    by_cases h1 : (O.eid e == O.eid t) = true
    · rw [if_pos h1]; exact hscope _ _
    · rw [if_neg h1]
      by_cases h2 : (O.eid e == O.eid p) = true
      · rw [if_pos h2]; exact hscope _ _
      · rw [if_neg h2]
  have hg_q : ∀ e, q (g e) = q e := by
    intro e
    rw [hgdef]; dsimp only
    by_cases h1 : (O.eid e == O.eid t) = true
    · rw [if_pos h1]; exact hq _ _
    · rw [if_neg h1]
      by_cases h2 : (O.eid e == O.eid p) = true
      · rw [if_pos h2]; exact hq _ _
      · rw [if_neg h2]
  have hkey_t2 : O.key t2 = O.key p := O.key_setKey _ _
  have hdone_t2 : O.done t2 = O.done t := O.done_setKey _ _
  have hkey_p2 : O.key p2 = O.key t := O.key_setKey _ _
  have hdone_p2 : O.done p2 = O.done p := O.done_setKey _ _
  have hfind2 : (l.map g).find? q = some t2 := by
    rw [List.find?_map, show (q ∘ g) = q from funext hg_q, hfind]
    simp [hgt]
  have hsg : (scope ∘ g) = scope := funext hg_scope
  have hfilter2 : (l.map g).filter scope = (l.filter scope).map g := by
    rw [List.filter_map, hsg]
  have htf : t ∈ l.filter scope := List.mem_filter.mpr ⟨htl, hst⟩
  have hpf : p ∈ l.filter scope := List.mem_filter.mpr ⟨hpl, hps⟩
  have hfilnd : (l.filter scope).Nodup := hlnd.filter _
  have hkeysperm : ((l.filter scope).map (O.key ∘ g)).Perm
      ((l.filter scope).map O.key) := by
    apply perm_map_swap O.key (O.key ∘ g) (l.filter scope) t p htf hpf hfilnd htp
    · show O.key (g t) = O.key p
      rw [hgt]; exact hkey_t2
    · show O.key (g p) = O.key t
      rw [hgp]; exact hkey_p2
    · intro x hx hxt hxp
      have h1 : O.eid x ≠ O.eid t :=
        fun hc => hxt (hinj (List.mem_of_mem_filter hx) htl hc)
      have h2 : O.eid x ≠ O.eid p :=
        fun hc => hxp (hinj (List.mem_of_mem_filter hx) hpl hc)
      show O.key (g x) = O.key x
      rw [hgother x h1 h2]
  have hkeys2 : (((l.map g).filter scope).map O.key).Nodup := by
    rw [hfilter2, List.map_map]
    exact (hkeysperm.nodup_iff).mpr hkeys
  -- the down candidates of the swapped list
  have hp2mem : p2 ∈ l.map g := by
    rw [← hgp]; exact List.mem_map_of_mem g hpl
  have hscope_p2 : scope p2 = true := by
    rw [← hgp, hg_scope]; exact hps
  have hlt_p2 : optLt (O.key t2) (O.key p2) = true := by
    rw [hkey_t2, hkey_p2, hkp, hkt]
    simp [optLt, hkplt]
  have hdone_p2t2 : (O.done p2 == O.done t2) = true := by
    rw [hdone_p2, hdone_t2, hpd]
    simp
  have hp2dn : p2 ∈ (l.map g).filter (fun e => scope e && optLt (O.key t2) (O.key e)
      && (O.done e == O.done t2)) := by
    apply List.mem_filter.mpr
    refine ⟨hp2mem, ?_⟩
    rw [Bool.and_eq_true, Bool.and_eq_true]
    exact ⟨⟨hscope_p2, hlt_p2⟩, hdone_p2t2⟩
  have hdnne : (l.map g).filter (fun e => scope e && optLt (O.key t2) (O.key e)
      && (O.done e == O.done t2)) ≠ [] :=
    fun hc => by rw [hc] at hp2dn; exact absurd hp2dn (List.not_mem_nil p2)
  obtain ⟨r, hrpick⟩ := pickBest_some_of_ne_nil
    (fun x m => optLt (O.key x) (O.key m)) _ hdnne
  have hrmem := pickBest_mem _ _ _ hrpick
  have hrl2 : r ∈ l.map g := List.mem_of_mem_filter hrmem
  have hrcond := List.of_mem_filter hrmem
  simp only [Bool.and_eq_true, beq_iff_eq] at hrcond
  obtain ⟨⟨hr_scope, hr_lt⟩, hr_done⟩ := hrcond
  have hrbest : ∀ x ∈ (l.map g).filter (fun e => scope e
      && optLt (O.key t2) (O.key e) && (O.done e == O.done t2)),
      optLt (O.key x) (O.key r) = false :=
    pickBest_best (fun x m => optLt (O.key x) (O.key m))
      (fun a => optLt_irrefl (O.key a))
      (fun _ _ _ h1 h2 => optLt_trans h1 h2) _ r hrpick
  have hrp2 : r = p2 := by
    obtain ⟨y, hyl, hyg⟩ := List.mem_map.mp hrl2
    by_cases hyp : O.eid y = O.eid p
    · have hy : y = p := hinj hyl hpl hyp
      rw [← hyg, hy, hgp]
    · by_cases hyt : O.eid y = O.eid t
      · exfalso
        have hy : y = t := hinj hyl htl hyt
        rw [← hyg, hy, hgt, hkey_t2] at hr_lt
        rw [optLt_irrefl] at hr_lt
        cases hr_lt
      · have hry : r = y := by rw [← hyg, hgother y hyt hyp]
        have hnotlt : optLt (O.key r) (O.key t) = false := by
          by_contra hc
          have hc' : optLt (O.key r) (O.key t) = true := by
            revert hc; cases optLt (O.key r) (O.key t) <;> simp
          have hyup : y ∈ l.filter (fun e => scope e && optLt (O.key e) (O.key t)
              && (O.done e == O.done t)) := by
            apply List.mem_filter.mpr
            refine ⟨hyl, ?_⟩
            rw [Bool.and_eq_true, Bool.and_eq_true]
            refine ⟨⟨?_, ?_⟩, ?_⟩
            · rw [← hry]; exact hr_scope
            · rw [← hry]; exact hc'
            · rw [← hry]
              simp only [beq_iff_eq]
              rw [hr_done, hdone_t2]
          have hm := hmax y hyup
          rw [← hry] at hm
          rw [hkey_t2] at hr_lt
          rw [hm] at hr_lt
          cases hr_lt
        have hble := hrbest p2 hp2dn
        rw [hkey_p2] at hble
        -- keys of r and t are both present: key r above key p, key t present
        rw [hkey_t2, hkp] at hr_lt
        obtain ⟨kp1, kr, hkp1, hkr, hlt1⟩ := optLt_somes hr_lt
        have hkeq : O.key r = O.key t := by
          rw [hkt, hkr] at hnotlt hble
          simp only [optLt, decide_eq_false_iff_not, not_lt] at hnotlt hble
          rw [hkr, hkt]
          exact congrArg some (le_antisymm hble hnotlt)
        have hrfil : r ∈ (l.map g).filter scope :=
          List.mem_filter.mpr ⟨hrl2, hr_scope⟩
        have hp2fil : p2 ∈ (l.map g).filter scope :=
          List.mem_filter.mpr ⟨hp2mem, hscope_p2⟩
        exact List.inj_on_of_nodup_map hkeys2 hrfil hp2fil (by rw [hkeq, hkey_p2])
  subst hrp2
  have hdownres : genMoveDown O scope (l.map g) t2 = genSwap O t2 p2 (l.map g) := by
    rw [genMoveDown, hrpick]
  have hfinal : genSwap O t2 p2 (l.map g) = l := by
    rw [genSwap, List.map_map]
    have heid_t2 : O.eid t2 = O.eid t := O.eid_setKey _ _
    have heid_p2 : O.eid p2 = O.eid p := O.eid_setKey _ _
    have hid : ∀ e ∈ l, ((fun e => if O.eid e == O.eid t2 then O.setKey e (O.key p2)
        else if O.eid e == O.eid p2 then O.setKey e (O.key t2) else e) ∘ g) e
          = id e := by
      intro e hel
      show (if O.eid (g e) == O.eid t2 then O.setKey (g e) (O.key p2)
        else if O.eid (g e) == O.eid p2 then O.setKey (g e) (O.key t2) else g e) = e
      by_cases h1 : O.eid e = O.eid t
      · have he : e = t := hinj hel htl h1
        subst he
        rw [hgt]
        rw [if_pos (by simp [heid_t2])]
        rw [ht2, O.setKey_setKey, hkey_p2, O.setKey_key]
      · by_cases h2 : O.eid e = O.eid p
        · have he : e = p := hinj hel hpl h2
          subst he
          rw [hgp]
          rw [if_neg (by simp [heid_p2, heid_t2, heidpt])]
          rw [if_pos (by simp [heid_p2])]
          rw [hp2, O.setKey_setKey, hkey_t2, O.setKey_key]
        · rw [hgother e h1 h2]
          rw [if_neg (by simp [heid_t2, h1]), if_neg (by simp [heid_p2, h2])]
    rw [List.map_congr_left hid, List.map_id]
  refine ⟨p, hres1, ?_, ?_⟩
  · rw [hswap]
    exact hfind2
  · rw [hswap, hdownres, hfinal]

/-- C6: for a task (resp. subtask) that has a same-scope same-cohort
neighbour with a strictly lower order key, moving it up and then down
restores the task table (resp. subtask table) exactly, hence the original
assignment of order keys; stated under the invariant hypotheses that row
ids are unique and order keys within the scope are distinct (the SQL row
order between equal keys is unspecified, cf. the tie remark in
`pickBest`). -/
theorem move_roundtrip :
    (∀ (tasks : List Task) (uid tid : Nat) (t : Task),
       (tasks.map Task.id).Nodup →
       ((tasks.filter (fun e => e.user_id == uid)).map Task.order_index).Nodup →
       tasks.find? (fun e => e.id == tid && e.user_id == uid) = some t →
       (∃ e ∈ tasks, (e.user_id == uid) = true ∧ e.is_completed = t.is_completed ∧
         optLt e.order_index t.order_index = true) →
       move_task_down (move_task_up tasks uid tid) uid tid = tasks) ∧
    (∀ (tasks : List Task) (subs : List Subtask) (uid sid : Nat) (st : Subtask),
       (subs.map Subtask.id).Nodup →
       ((subs.filter (fun e => e.task_id == st.task_id)).map
         Subtask.order_index).Nodup →
       subs.find? (fun s => s.id == sid
         && tasks.any (fun tk => tk.id == s.task_id && tk.user_id == uid)) = some st →
       (∃ e ∈ subs, (e.task_id == st.task_id) = true ∧
         e.is_completed = st.is_completed ∧
         optLt e.order_index st.order_index = true) →
       move_subtask_down tasks (move_subtask_up tasks subs uid sid) uid sid = subs) := by
  constructor
  · intro tasks uid tid t hnd hkeys hfind hnb
    have hq := List.find?_some hfind
    rw [Bool.and_eq_true] at hq
    obtain ⟨-, hst⟩ := hq
    obtain ⟨p, hup, hfind2, hdown⟩ := genMove_roundtrip taskOps
      (fun e => e.user_id == uid) (fun e => e.id == tid && e.user_id == uid)
      tasks t (fun _ _ => rfl) (fun _ _ => rfl) hnd hkeys hfind hst hnb
    have h1 : move_task_up tasks uid tid = genSwap taskOps t p tasks := by
      rw [move_task_up, hfind]
      exact hup
    rw [h1, move_task_down, hfind2]
    exact hdown
  · intro tasks subs uid sid st hnd hkeys hfind hnb
    have hst : (st.task_id == st.task_id) = true := by simp
    obtain ⟨p, hup, hfind2, hdown⟩ := genMove_roundtrip subtaskOps
      (fun e => e.task_id == st.task_id)
      (fun s => s.id == sid
        && tasks.any (fun tk => tk.id == s.task_id && tk.user_id == uid))
      subs st (fun _ _ => rfl) (fun _ _ => rfl) hnd hkeys hfind hst hnb
    have h1 : move_subtask_up tasks subs uid sid = genSwap subtaskOps st p subs := by
      rw [move_subtask_up, hfind]
      exact hup
    rw [h1, move_subtask_down, hfind2]
    exact hdown

/-- Witness for C6: on a two-task list (keys 1 and 2, same user, same
cohort) moving task 2 up then down restores the list, and likewise for two
subtasks of one task. -/
theorem move_roundtrip_witness :
    (([⟨1, "a", 30, false, "medium", "any", some 1, 1, none⟩,
       ⟨2, "b", 30, false, "medium", "any", some 2, 1, none⟩] : List Task).find?
        (fun e => e.id == 2 && e.user_id == 1)
      = some ⟨2, "b", 30, false, "medium", "any", some 2, 1, none⟩) ∧
    (∃ e ∈ ([⟨1, "a", 30, false, "medium", "any", some 1, 1, none⟩,
             ⟨2, "b", 30, false, "medium", "any", some 2, 1, none⟩] : List Task),
       (e.user_id == 1) = true ∧
       e.is_completed = (⟨2, "b", 30, false, "medium", "any", some 2, 1, none⟩
         : Task).is_completed ∧
       optLt e.order_index (⟨2, "b", 30, false, "medium", "any", some 2, 1, none⟩
         : Task).order_index = true) ∧
    move_task_down (move_task_up
        [⟨1, "a", 30, false, "medium", "any", some 1, 1, none⟩,
         ⟨2, "b", 30, false, "medium", "any", some 2, 1, none⟩] 1 2) 1 2
      = [⟨1, "a", 30, false, "medium", "any", some 1, 1, none⟩,
         ⟨2, "b", 30, false, "medium", "any", some 2, 1, none⟩] ∧
    move_subtask_down [⟨1, "t", 30, false, "medium", "any", some 1, 1, none⟩]
        (move_subtask_up [⟨1, "t", 30, false, "medium", "any", some 1, 1, none⟩]
          [⟨1, "x", false, some 1, 1⟩, ⟨2, "y", false, some 2, 1⟩] 1 2) 1 2
      = [⟨1, "x", false, some 1, 1⟩, ⟨2, "y", false, some 2, 1⟩] :=
  ⟨by decide, by decide,
   move_roundtrip.1
     [⟨1, "a", 30, false, "medium", "any", some 1, 1, none⟩,
      ⟨2, "b", 30, false, "medium", "any", some 2, 1, none⟩] 1 2
     ⟨2, "b", 30, false, "medium", "any", some 2, 1, none⟩
     (by decide) (by decide) (by decide) (by decide),
   move_roundtrip.2 [⟨1, "t", 30, false, "medium", "any", some 1, 1, none⟩]
     [⟨1, "x", false, some 1, 1⟩, ⟨2, "y", false, some 2, 1⟩] 1 2
     ⟨2, "y", false, some 2, 1⟩
     (by decide) (by decide) (by decide) (by decide)⟩

/-- Witness for C7: with two incomplete tasks of one user (keys 1 and 2),
moving the first task up is a no-op (no lower same-cohort key exists) and
the key column of a subtask move is a permutation of the original. -/
theorem move_preserves_keys_witness :
    (([⟨1, "a", 30, false, "medium", "any", some 1, 1, none⟩,
       ⟨2, "b", 30, false, "medium", "any", some 2, 1, none⟩] : List Task).map
         Task.id).Nodup ∧
    ((move_task_up [⟨1, "a", 30, false, "medium", "any", some 1, 1, none⟩,
        ⟨2, "b", 30, false, "medium", "any", some 2, 1, none⟩] 1 1).map
          Task.order_index).Perm
      (([⟨1, "a", 30, false, "medium", "any", some 1, 1, none⟩,
         ⟨2, "b", 30, false, "medium", "any", some 2, 1, none⟩] : List Task).map
           Task.order_index) ∧
    move_task_up [⟨1, "a", 30, false, "medium", "any", some 1, 1, none⟩,
        ⟨2, "b", 30, false, "medium", "any", some 2, 1, none⟩] 1 1
      = [⟨1, "a", 30, false, "medium", "any", some 1, 1, none⟩,
         ⟨2, "b", 30, false, "medium", "any", some 2, 1, none⟩] ∧
    ((move_subtask_down [⟨1, "t", 30, false, "medium", "any", some 1, 1, none⟩]
        [⟨1, "x", false, some 1, 1⟩, ⟨2, "y", false, some 2, 1⟩] 1 1).map
          Subtask.order_index).Perm
      (([⟨1, "x", false, some 1, 1⟩, ⟨2, "y", false, some 2, 1⟩] : List Subtask).map
        Subtask.order_index) :=
  ⟨by decide,
   (move_preserves_keys.1
     [⟨1, "a", 30, false, "medium", "any", some 1, 1, none⟩,
      ⟨2, "b", 30, false, "medium", "any", some 2, 1, none⟩] 1 1 (by decide)).1,
   (move_preserves_keys.1
     [⟨1, "a", 30, false, "medium", "any", some 1, 1, none⟩,
      ⟨2, "b", 30, false, "medium", "any", some 2, 1, none⟩] 1 1 (by decide)).2.1
     ⟨1, "a", 30, false, "medium", "any", some 1, 1, none⟩ (by decide) (by decide),
   (move_preserves_keys.2.2.2 [⟨1, "t", 30, false, "medium", "any", some 1, 1, none⟩]
     [⟨1, "x", false, some 1, 1⟩, ⟨2, "y", false, some 2, 1⟩] 1 1 (by decide)).1⟩

end Daywise
